import Mathlib

/-!
# Verification of the data-contracts chat agent (apelevin/daai)

Shallow embedding of the components exercised by the specification's
testable properties: the contract validator, glossary ambiguity checker,
governance policy check, the `save_contract` tool gates, the Store's write
paths, the active-thread registry, the dunning-ladder scheduler pass, the
intent router, the approval workflow, the tool-executor dispatcher and the
continuous planner cycle.

Python `dict`s that the code reads from JSON files are embedded as typed
association lists preserving insertion order; machine strings are Lean
`String`s (sequences of Unicode code points, as in Python); timestamps are
integer seconds.  `str.lower()` is modelled for the ASCII and Russian
Cyrillic alphabets, the only alphabets appearing in the embedded code and
data.
-/

namespace Daai

/-! ## Python string primitives -/

/-- `str.lower()` restricted to ASCII and Russian Cyrillic (А-Я → а-я, Ё → ё),
the alphabets used by the source. -/
def pyCharLower (c : Char) : Char :=
  if 'A' ≤ c ∧ c ≤ 'Z' then Char.ofNat (c.toNat + 32)
  else if 0x410 ≤ c.toNat ∧ c.toNat ≤ 0x42F then Char.ofNat (c.toNat + 0x20)
  else if c.toNat = 0x401 then Char.ofNat 0x451
  else c

/-- `str.lower()` (per-character, see `pyCharLower`). -/
def pyLower (s : String) : String :=
  ⟨s.data.map pyCharLower⟩

/-- `startsWith` on code-point lists (kernel-computable). -/
def strStartsWith (s pre : String) : Bool :=
  pre.data.isPrefixOf s.data

/-- Drop the first `n` code points. -/
def strDrop (s : String) (n : Nat) : String :=
  ⟨s.data.drop n⟩

/-- Length in code points (Python `len`). -/
def strLen (s : String) : Nat :=
  s.data.length

/-- `sep.join(xs)`. -/
def strJoin (sep : String) : List String → String
  | [] => ""
  | [x] => x
  | x :: y :: rest => x ++ sep ++ strJoin sep (y :: rest)

/-- Substring search on code-point lists (Python's `needle in hay`). -/
def charListContains (hay needle : List Char) : Bool :=
  match hay with
  | [] => needle.isEmpty
  | c :: rest => needle.isPrefixOf (c :: rest) || charListContains rest needle

/-- Python's `needle in hay` on strings. -/
def strContains (hay needle : String) : Bool :=
  charListContains hay.data needle.data

def splitCharAux (sep : Char) : List Char → List Char → List (List Char)
  | [], acc => [acc.reverse]
  | c :: rest, acc =>
    if c = sep then acc.reverse :: splitCharAux sep rest []
    else splitCharAux sep rest (c :: acc)

/-- Split a string on a separator character (like `splitOn` for a 1-char
separator). -/
def splitChar (s : String) (sep : Char) : List String :=
  (splitCharAux sep s.data []).map (fun l => (⟨l⟩ : String))

/-- `str.splitlines()` for `\n`-separated text: like splitting on `\n` but a
trailing newline produces no final empty line. -/
def pySplitLines (s : String) : List String :=
  let parts := splitChar s '\n'
  if parts.getLast? = some "" then parts.dropLast else parts

/-- `str.strip()` (whitespace at both ends). -/
def pyStrip (s : String) : String :=
  ⟨((s.data.dropWhile Char.isWhitespace).reverse.dropWhile Char.isWhitespace).reverse⟩

/-- Split at the first occurrence of a separator character:
Python `s.split(sep, 1)` when the separator occurs. -/
def splitFirst? (s : String) (sep : Char) : Option (String × String) :=
  match s.data.findIdx? (· = sep) with
  | none => none
  | some i => some (⟨s.data.take i⟩, ⟨s.data.drop (i + 1)⟩)

/-- Ordered association-list read (`dict.get`). -/
def lookupKey {β : Type} (m : List (String × β)) (k : String) : Option β :=
  match m with
  | [] => none
  | (k', v) :: rest => if k' = k then some v else lookupKey rest k

/-- Ordered association-list write (`d[k] = v`): update in place or append. -/
def setKey {β : Type} (m : List (String × β)) (k : String) (v : β) :
    List (String × β) :=
  match m with
  | [] => [(k, v)]
  | (k', v') :: rest =>
    if k' = k then (k', v) :: rest else (k', v') :: setKey rest k v

/-- Order-preserving deduplication (`list(dict.fromkeys(xs))`). -/
def dedup (xs : List String) : List String :=
  match xs with
  | [] => []
  | x :: rest => x :: (dedup rest).filter (· ≠ x)

/-- First non-empty string of a list, `""` if none (Python `a or b or c`). -/
def firstNonEmpty (xs : List String) : String :=
  ((xs.find? (· ≠ "")).getD "")

/-! ## Validator (src/validator.py) -/

structure ValidationIssue where
  code : String
  message : String
  deriving DecidableEq, Repr

structure ValidationReport where
  ok : Bool
  issues : List ValidationIssue
  deriving DecidableEq, Repr

def REQUIRED_SECTIONS : List String :=
  ["Статус", "Определение", "Формула", "Источник данных", "Включает",
   "Исключения", "Гранулярность", "Ответственный за данные",
   "Ответственный за расчёт", "Связь с Extra Time", "Потребители",
   "Состояние данных", "Согласовано", "История изменений"]

def OPTIONAL_SECTIONS : List String :=
  ["Известные проблемы", "Связанные контракты"]

def ARROW_PATTERNS : List String := ["→", "->", "—>", "=>"]

/-- A line matched by `^##\s+(.+?)\s*$`: `##`, at least one whitespace
character, then at least one further character. -/
def isSectionHeader (line : String) : Bool :=
  strStartsWith line "##" ∧ 2 ≤ strLen (strDrop line 2) ∧
    ((strDrop line 2).data.headD 'x').isWhitespace

/-- Header title: `m.group(1).strip()` equals the text after `##`, stripped. -/
def sectionTitle (line : String) : String :=
  pyStrip (strDrop line 2)

/-- `sections[current].append(line)` on an association list of line buckets. -/
def appendLineTo (secs : List (String × List String)) (k : String)
    (line : String) : List (String × List String) :=
  match secs with
  | [] => [(k, [line])]
  | (k', ls) :: rest =>
    if k' = k then (k', ls ++ [line]) :: rest
    else (k', ls) :: appendLineTo rest k line

/-- Fold of `_extract_sections`'s line loop: tracks the current heading and
the per-heading line buckets (`setdefault` keeps an existing bucket). -/
def extractSectionsLoop (lines : List String)
    (current : Option String) (secs : List (String × List String)) :
    List (String × List String) :=
  match lines with
  | [] => secs
  | line :: rest =>
    if isSectionHeader line then
      let t := sectionTitle line
      let secs' := if (lookupKey secs t).isSome then secs else secs ++ [(t, [])]
      extractSectionsLoop rest (some t) secs'
    else
      match current with
      | none => extractSectionsLoop rest none secs
      | some c => extractSectionsLoop rest (some c) (appendLineTo secs c line)

/-- `_extract_sections`: split markdown by `## <title>` headings. -/
def extractSections (md : String) : List (String × String) :=
  (extractSectionsLoop (pySplitLines md) none []).map
    (fun p => (p.1, pyStrip (strJoin "\n" p.2)))

def missingSectionIssues (sections : List (String × String)) :
    List ValidationIssue :=
  (REQUIRED_SECTIONS.filter
      (fun s => match lookupKey sections s with
                | none => true
                | some v => v = "")).map
    (fun s => ⟨"missing_section", "Не заполнена секция: " ++ s⟩)

def optionalSectionWarnings (sections : List (String × String)) :
    List ValidationIssue :=
  (OPTIONAL_SECTIONS.filter
      (fun s => match lookupKey sections s with
                | none => true
                | some v => v = "")).map
    (fun s => ⟨"missing_optional_section",
               "Рекомендуется заполнить секцию: " ++ s⟩)

def formulaWarnings (formula : String) : List ValidationIssue :=
  if formula = "" then []
  else
    (if ¬ strContains (pyLower formula) "человеческая" then
      [⟨"formula_missing_human",
        "Рекомендуется добавить строку «Человеческая: ...» в секцию «Формула»"⟩]
     else []) ++
    (if ¬ (strContains (pyLower formula) "псевдо" ∧
           strContains (pyLower formula) "sql") then
      [⟨"formula_missing_sql",
        "Рекомендуется добавить блок «Псевдо‑SQL: ...» в секцию «Формула»"⟩]
     else [])

def linkageIssues (linkage : String) : List ValidationIssue :=
  if linkage = "" then []
  else
    let has_extra_time := strContains (pyLower linkage) "extra time"
    let has_arrow := ARROW_PATTERNS.any (fun a => strContains linkage a)
    if ¬ has_extra_time ∨ ¬ has_arrow then
      [⟨"missing_extra_time_path",
        "В секции «Связь с Extra Time» должен быть путь вида «X → ... → Extra Time»"⟩]
    else []

/-- `validate_contract`: deterministic validation of contract markdown. -/
def validate_contract (contract_md : String) : ValidationReport :=
  let sections := extractSections contract_md
  let issues :=
    missingSectionIssues sections ++
    linkageIssues ((lookupKey sections "Связь с Extra Time").getD "")
  let warnings :=
    optionalSectionWarnings sections ++
    formulaWarnings ((lookupKey sections "Формула").getD "")
  ⟨issues.isEmpty, issues ++ warnings⟩

/-! ## Glossary ambiguity checker (src/glossary.py) -/

structure GlossaryIssue where
  canonical : String
  message : String
  deriving DecidableEq, Repr

/-- A glossary term: `{canonical, aliases, disambiguation}`; the
disambiguation groups are the dict entries whose value is a list. -/
structure GlossTerm where
  canonical : String
  aliases : List String
  disambiguation : List (String × List String)
  deriving DecidableEq, Repr

/-- Parsed `context/glossary.json` (`none` = file absent, invalid JSON or not
an object: `check_ambiguity` returns no issues for those). -/
structure Glossary where
  terms : List GlossTerm
  deriving DecidableEq, Repr

/-- `_find_any`: case-insensitive containment of any non-empty pattern. -/
def findAny (text : String) (patterns : List String) : Bool :=
  if text = "" then false
  else patterns.any (fun p => p ≠ "" ∧ strContains (pyLower text) (pyLower p))

def glossaryTermIssue (low : String) (t : GlossTerm) : List GlossaryIssue :=
  let canonical := pyStrip t.canonical
  if canonical = "" ∨ t.disambiguation.isEmpty then []
  else
    let term_patterns := canonical :: t.aliases
    if ¬ findAny low ((term_patterns.filter (· ≠ "")).map pyLower) then []
    else
      let groups := t.disambiguation
      if groups.any (fun g => findAny low (g.2.map pyLower)) then []
      else
        let opts := strJoin "; " (groups.map (·.1))
        [⟨canonical,
          "Термин «" ++ canonical ++ "» выглядит неоднозначно. " ++
          "Уточни, что именно имеется в виду: " ++ opts ++ ". " ++
          "После уточнения обновим контракт."⟩]

/-- `check_ambiguity`: deterministic glossary ambiguity check. -/
def check_ambiguity (contract_md : String) (glossary : Option Glossary) :
    List GlossaryIssue :=
  match glossary with
  | none => []
  | some g =>
    let low := pyLower contract_md
    g.terms.foldl (fun acc t => acc ++ glossaryTermIssue low t) []

/-! ## Governance (src/governance.py) -/

structure ApprovalPolicy where
  tier : String
  approval_required : List String
  consensus_threshold : ℚ
  deriving DecidableEq, Repr

structure ApprovalCheck where
  ok : Bool
  missing_roles : List String
  threshold : ℚ
  have_ratio : ℚ
  deriving DecidableEq, Repr

def isApproverChar (c : Char) : Bool :=
  ('a' ≤ c ∧ c ≤ 'z') ∨ ('A' ≤ c ∧ c ≤ 'Z') ∨ ('0' ≤ c ∧ c ≤ '9') ∨
    c = '_' ∨ c = '-' ∨ c = '.'

/-- First match of `@([a-z0-9_\-.]+)` (IGNORECASE) in a line, lowercased. -/
def findMention (cs : List Char) : Option String :=
  match cs with
  | [] => none
  | '@' :: rest =>
    let run := rest.takeWhile isApproverChar
    if run.isEmpty then findMention rest
    else some (String.mk (run.map pyCharLower))
  | _ :: rest => findMention rest

def extractApproversLoop (lines : List String) (inSection : Bool)
    (users : List String) : List String :=
  match lines with
  | [] => users
  | line :: rest =>
    if strStartsWith (pyStrip line) "## " then
      extractApproversLoop rest
        (strStartsWith (pyLower (pyStrip line)) "## согласовано") users
    else if ¬ inSection then extractApproversLoop rest inSection users
    else
      match findMention line.data with
      | none => extractApproversLoop rest inSection users
      | some u => extractApproversLoop rest inSection (users ++ [u])

/-- `_extract_approvers`: `@username`s from the `## Согласовано` section. -/
def extractApprovers (contract_md : String) : List String :=
  dedup (extractApproversLoop (pySplitLines contract_md) false [])

/-- `check_approval_policy` over a `username → role` map. -/
def check_approval_policy (contract_md : String) (policy : ApprovalPolicy)
    (role_map : List (String × String)) : ApprovalCheck :=
  let approvers := extractApprovers contract_md
  let have_roles :=
    (approvers.filterMap (fun u => lookupKey role_map u)).filter (· ≠ "")
  let req := dedup (policy.approval_required.filter (· ≠ ""))
  let missing := req.filter (fun r => ¬ have_roles.contains r)
  let haveN := req.length - missing.length
  let ratio : ℚ := if req.isEmpty then 1 else (haveN : ℚ) / (req.length : ℚ)
  let okB : Bool :=
    if policy.consensus_threshold = 1 then missing.isEmpty
    else ratio ≥ policy.consensus_threshold
  ⟨okB, missing, policy.consensus_threshold, ratio⟩

/-! ## Memory state and merged role map (src/memory.py, src/tools.py) -/

/-- One record of `contracts/index.json` (dict entries; non-dict list items
are skipped by every reader and are omitted from the embedding). -/
structure IndexEntry where
  id : String
  name : Option String := none
  status : Option String := none
  tier : Option String := none
  file : Option String := none
  agreed_date : Option String := none
  status_updated_at : Option String := none
  updated_at : Option Int := none
  created_at : Option Int := none
  versions_dir : Option String := none
  history_file : Option String := none
  deriving DecidableEq, Repr

/-- One `history.jsonl` line; the SHA-256 digest is supplied by an
uninterpreted hash parameter. -/
structure HistEntry where
  ts : String
  kind : String
  sha256 : String
  bytes : Nat
  deriving DecidableEq, Repr

/-- A roles file (`context/roles.json` / `tasks/roles.json`): the `roles`
object, `none` when the file is absent, invalid or not of that shape. -/
abbrev RolesFile := Option (List (String × List String))

/-- The slice of the Store's file tree that the embedded tools read and
write, with each JSON file held in parsed, typed form. -/
structure MemState where
  contracts : List (String × String) := []
  versions : List (String × String) := []
  history : List (String × List HistEntry) := []
  index : Option (List IndexEntry) := none
  governanceTiers : List (String × (List String × Option ℚ)) := []
  glossary : Option Glossary := none
  rolesDefault : RolesFile := none
  rolesRuntime : RolesFile := none
  deriving DecidableEq, Repr

/-- `Memory.list_contracts`. -/
def listContracts (st : MemState) : List IndexEntry :=
  st.index.getD []

def mergeRolesUsers (cur : List String) (users : List String) : List String :=
  users.foldl
    (fun cur u =>
      if (cur.map pyLower).contains (pyLower u) then cur else cur ++ [pyLower u])
    cur

def mergeRolesFrom (acc : List (String × List String)) (src : RolesFile) :
    List (String × List String) :=
  match src with
  | none => acc
  | some rs =>
    rs.foldl
      (fun acc p =>
        setKey acc p.1 (mergeRolesUsers ((lookupKey acc p.1).getD []) p.2))
      acc

/-- `_merge_roles`: union of `context/roles.json` and `tasks/roles.json`,
deduplicated case-insensitively, usernames lowercased. -/
def merge_roles (st : MemState) : List (String × List String) :=
  mergeRolesFrom (mergeRolesFrom [] st.rolesDefault) st.rolesRuntime

/-- The `username → role` map built by the governance gates (later roles
overwrite earlier entries for the same user, as with dict assignment). -/
def roleMapOf (merged : List (String × List String)) :
    List (String × String) :=
  merged.foldl
    (fun rm p => p.2.foldl (fun rm u => setKey rm (pyLower u) p.1) rm)
    []

/-! ## The `save_contract` tool (src/tools.py, `_tool_save_contract`) -/

def extractNameLoop : List String → Option String
  | [] => none
  | l :: rest =>
    let line := pyStrip l
    if line = "" then extractNameLoop rest
    else if strStartsWith (pyLower line) "# data contract:" then
      match splitFirst? line ':' with
      | some p => let n := pyStrip p.2; if n = "" then none else some n
      | none => none
    else if strStartsWith line "#" ∧ strContains line "Data Contract" then
      match splitFirst? line ':' with
      | some p => let n := pyStrip p.2; if n = "" then none else some n
      | none => extractNameLoop rest
    else extractNameLoop rest

/-- `_extract_contract_name`: human name from the `# Data Contract:` H1. -/
def extract_contract_name (markdown : String) : Option String :=
  extractNameLoop (pySplitLines markdown)

/-- Validator issue codes that `_tool_save_contract` downgrades to warnings. -/
def isDowngradedIssue (i : ValidationIssue) : Bool :=
  i.code = "missing_optional_section" ∨ strStartsWith i.code "formula_missing"

/-- Gate (a): blocking validator messages (collected only when the report is
not ok, as in the source). -/
def validationErrors (content : String) : List String :=
  if (validate_contract content).ok then []
  else
    ((validate_contract content).issues.filter (fun i => ¬ isDowngradedIssue i)).map
      (fun i => "Валидация: " ++ i.message)

/-- Validator warnings surfaced by `_tool_save_contract`. -/
def validationWarnings (content : String) : List String :=
  if (validate_contract content).ok then []
  else
    ((validate_contract content).issues.filter isDowngradedIssue).map (·.message)

/-- Tier for a contract: the index record's tier if present and truthy,
otherwise the `"tier_2"` default. -/
def findTier (st : MemState) (contract_id : String) : String :=
  match (listContracts st).find?
      (fun c => pyLower c.id = pyLower contract_id ∧ (c.tier.getD "") ≠ "") with
  | some c => c.tier.getD "tier_2"
  | none => "tier_2"

/-- `float(tier_cfg.get("consensus_threshold") or 1.0)`: absent, null or `0`
falls back to `1.0`. -/
def thresholdOf (t : Option ℚ) : ℚ :=
  match t with
  | none => 1
  | some q => if q = 0 then 1 else q

/-- `", ".join(check.missing_roles) or "(неизвестно)"`. -/
def missingRolesText (ms : List String) : String :=
  let j := strJoin ", " ms
  if j = "" then "(неизвестно)" else j

/-- Gate (b): tier-policy governance check against the merged role map. -/
def governanceErrors (st : MemState) (contract_id content : String) :
    List String :=
  let tier_key := findTier st contract_id
  match lookupKey st.governanceTiers tier_key with
  | none => []
  | some cfg =>
    let policy : ApprovalPolicy := ⟨tier_key, cfg.1, thresholdOf cfg.2⟩
    let check :=
      check_approval_policy content policy (roleMapOf (merge_roles st))
    if check.ok then []
    else
      ["Governance (" ++ tier_key ++ "): не хватает ролей: " ++
        missingRolesText check.missing_roles]

/-- Gate (c): glossary ambiguity messages, prefixed as in the source. -/
def glossaryMessages (st : MemState) (content : String) : List String :=
  (check_ambiguity content st.glossary).map
    (fun gi => "Глоссарий: " ++ gi.message)

/-- Steps 1–3 of `_tool_save_contract`: `(errors, warnings)` accumulated in
gate order (validator, then governance, then glossary); `force` downgrades
only the glossary messages to warnings. -/
def saveContractCheck (st : MemState) (contract_id content : String)
    (force : Bool) : List String × List String :=
  (validationErrors content ++ governanceErrors st contract_id content ++
     (if force then [] else glossaryMessages st content),
   validationWarnings content ++
     (if force then glossaryMessages st content else []))

def appendHist (h : List (String × List HistEntry)) (cid : String)
    (es : List HistEntry) : List (String × List HistEntry) :=
  match h with
  | [] => [(cid, es)]
  | (k, old) :: rest =>
    if k = cid then (k, old ++ es) :: rest else (k, old) :: appendHist rest cid es

/-- `Memory.save_contract`: snapshot the previous text when present, write
the current text and a snapshot, and append history metadata.  `sha` is an
uninterpreted stand-in for the SHA-256 hex digest. -/
def memSaveContract (sha : String → String) (ts : String) (st : MemState)
    (contract_id content : String) : MemState :=
  let prev := lookupKey st.contracts contract_id
  let vdir := "contracts/versions/" ++ contract_id
  let prevWrites :=
    match prev with
    | none => []
    | some p => [(vdir ++ "/" ++ ts ++ "_prev.md", p)]
  let prevHist :=
    match prev with
    | none => []
    | some p =>
      [(⟨ts ++ "_prev", "previous", sha p, p.utf8ByteSize⟩ : HistEntry)]
  { st with
    contracts := setKey st.contracts contract_id content,
    versions := st.versions ++ prevWrites ++ [(vdir ++ "/" ++ ts ++ ".md", content)],
    history := appendHist st.history contract_id
      (prevHist ++ [⟨ts, "current", sha content, content.utf8ByteSize⟩]) }

def updateEntryById (es : List IndexEntry) (cid : String)
    (patch : IndexEntry → IndexEntry) : List IndexEntry :=
  match es with
  | [] => [patch { id := cid }]
  | c :: rest =>
    if c.id = cid then patch c :: rest else c :: updateEntryById rest cid patch

/-- `Memory.update_contract_index` as called by `_tool_save_contract`:
merge `{name, status: "agreed", file, agreed_date, status_updated_at}` (plus
versioning metadata when a history file exists) into the record for the id,
appending a new record when absent. -/
def updateContractIndexAgreed (st : MemState) (cid name nowDate : String) :
    MemState :=
  let vdir := "contracts/versions/" ++ cid
  let hasHist := (lookupKey st.history cid).isSome
  let patch : IndexEntry → IndexEntry := fun c =>
    { c with
      name := some name,
      status := some "agreed",
      file := some ("contracts/" ++ cid ++ ".md"),
      agreed_date := some nowDate,
      status_updated_at := some nowDate,
      versions_dir := if hasHist then some vdir else c.versions_dir,
      history_file := if hasHist then some (vdir ++ "/history.jsonl") else c.history_file }
  { st with index := some (updateEntryById (st.index.getD []) cid patch) }

structure SaveResult where
  success : Bool
  contract_id : String
  errors : List String := []
  warnings : List String := []
  deriving DecidableEq, Repr

/-- `_tool_save_contract`: run the three pre-commit gates; on any error
abort without touching the state; otherwise persist via the Store and run
the post-commit side-effects.  The best-effort post-commit blocks
(relationship detection with an optional LLM pass, metrics-tree marking,
the rate-limited suggestion attempt) perform chat/LLM I/O and are
abstracted as the `postCommit` state transformer; `sha`, `ts` and `nowDate`
abstract the hash function and the wall clock. -/
def tool_save_contract (postCommit : MemState → MemState)
    (sha : String → String) (ts nowDate : String) (st : MemState)
    (contract_id content : String) (force : Bool) : SaveResult × MemState :=
  let ew := saveContractCheck st contract_id content force
  if ¬ ew.1.isEmpty then
    (⟨false, contract_id, ew.1, ew.2⟩, st)
  else
    let st1 := memSaveContract sha ts st contract_id content
    let name := (extract_contract_name content).getD contract_id
    let st2 := updateContractIndexAgreed st1 contract_id name nowDate
    (⟨true, contract_id, [], ew.2⟩, postCommit st2)

/-! ## Active-thread registry (src/memory.py) -/

/-- An entry's `updated_at`: absent/empty (falsy), present but unparseable
(`fromisoformat` raises, the source `pass`es), or a parsed timestamp. -/
inductive UpdAt where
  | absent
  | unparseable
  | time (t : Int)
  deriving DecidableEq, Repr

structure ThreadEntry where
  root_post_id : String
  updated_at : UpdAt
  deriving DecidableEq, Repr

/-- Parsed `tasks/active_threads.json` (`none`: file missing, invalid JSON,
or the data/threads values are not objects). -/
abbrev ThreadRegistry := Option (List (String × ThreadEntry))

def THREAD_TTL_DAYS : Int := 7

/-- TTL expiry test on an entry's `updated_at` (`datetime.now() - dt >
timedelta(days=THREAD_TTL_DAYS)`); absent or unparseable stamps never
expire on read. -/
def entryExpired (now : Int) (e : ThreadEntry) : Bool :=
  match e.updated_at with
  | .time t => decide (THREAD_TTL_DAYS * 86400 < now - t)
  | _ => false

/-- `Memory.get_active_thread`: root of the active thread for a contract,
`none` when missing, expired past the TTL, or empty. -/
def get_active_thread (reg : ThreadRegistry) (now : Int) (contract_id : String) :
    Option String :=
  match reg with
  | none => none
  | some threads =>
    match lookupKey threads contract_id with
    | none => none
    | some e =>
      if entryExpired now e then none
      else if e.root_post_id = "" then none
      else some e.root_post_id

/-- `Memory.set_active_thread`: register/overwrite the entry, stamping
`updated_at` with the current time. -/
def set_active_thread (reg : ThreadRegistry) (now : Int)
    (contract_id root_post_id : String) : ThreadRegistry :=
  some (setKey (reg.getD []) contract_id ⟨root_post_id, .time now⟩)

/-- Route intents that drive thread tracking. -/
def THREAD_TRACKING_TYPES : List String :=
  ["contract_discussion", "new_contract_init", "problem_report"]

structure ThreadTrackResult where
  thread_root_id : Option String
  registry : ThreadRegistry
  deriving DecidableEq, Repr

/-- Modelled from the spec: the thread-tracking step of
`Agent.process_message` (§4.2 "Thread tracking").  The revision of
`src/src/agent.py` in the snapshot predates it (no `ProcessResult`); the
behavior here follows the spec's words, exercised by
`tests/test_active_threads.py`.  For top-level channel messages of a
discussion-shaped intent carrying an entity, the agent resolves the active
thread for that entity (the reply re-attaches to it when fresh); post-reply
it registers `entity → root_post_id` where `root_post_id` is the first
non-empty of the incoming thread root, the resolved existing root, and the
incoming post id. -/
def agentThreadTracking (reg : ThreadRegistry) (now : Int)
    (channel_type route_type : String) (entity : Option String)
    (root_id post_id : String) : ThreadTrackResult :=
  if channel_type ≠ "channel" then ⟨none, reg⟩
  else if ¬ THREAD_TRACKING_TYPES.contains route_type then ⟨none, reg⟩
  else
    match entity with
    | none => ⟨none, reg⟩
    | some ent =>
      if ent = "" then ⟨none, reg⟩
      else
        let resolved := if root_id = "" then get_active_thread reg now ent else none
        let root_post_id := firstNonEmpty [root_id, resolved.getD "", post_id]
        let reg' :=
          if root_post_id = "" then reg
          else set_active_thread reg now ent root_post_id
        ⟨(if root_id = "" then resolved else none), reg'⟩

/-- `Listener._process_posted`'s channel-reply root choice:
`(result.thread_root_id if result else None) or root_id or post_id`. -/
def listenerReplyRoot (thread_root_id : Option String)
    (root_id post_id : String) : String :=
  firstNonEmpty [thread_root_id.getD "", root_id, post_id]

/-! ## Scheduler reminder pass (src/scheduler.py) -/

/-- One `tasks/reminders.json` record.  Timestamp strings are embedded as
parsed integer seconds (`none`: key absent or falsy; an unparseable
`next_reminder` aborts the whole pass in the source — a no-op — and is not
modelled). -/
structure Reminder where
  contract_id : String := ""
  target_user : String := ""
  target_mm_user_id : String := ""
  thread_id : Option String := none
  question_summary : String := ""
  first_asked : Option Int := none
  last_reminder : Option Int := none
  next_reminder : Option Int := none
  escalation_step : Int := 1
  deriving DecidableEq, Repr

def REMINDER_DEFAULT_INTERVAL_DAYS : Int := 2

/-- The ladder transition of `_check_reminders`: 1→2, 2→3, 3→4, ≥4→5
(clamped); other values fall through every branch unchanged. -/
def stepAdvance (step : Int) : Int :=
  if step = 1 then 2
  else if step = 2 then 3
  else if step = 3 then 4
  else if 4 ≤ step then 5
  else step

/-- One reminder in one `_check_reminders` pass: skipped unless due
(`next_reminder ≤ now`); when due, the ladder advances and
`last_reminder`/`next_reminder` are pushed forward.  The sent chat/DM
messages do not affect the reminder record and are not modelled here. -/
def processReminder (now : Int) (r : Reminder) : Reminder :=
  match r.next_reminder with
  | none => r
  | some t =>
    if now < t then r
    else
      { r with
        escalation_step := stepAdvance r.escalation_step,
        last_reminder := some now,
        next_reminder := some (now + REMINDER_DEFAULT_INTERVAL_DAYS * 86400) }

/-- `Scheduler._check_reminders` over the reminder list. -/
def check_reminders (now : Int) (rs : List Reminder) : List Reminder :=
  rs.map (processReminder now)

/-- A single reminder across a sequence of passes. -/
def processReminderSeq (nows : List Int) (r : Reminder) : Reminder :=
  nows.foldl (fun acc n => processReminder n acc) r

/-- A sequence of reminder passes at the given times. -/
def reminderPasses (nows : List Int) (rs : List Reminder) : List Reminder :=
  nows.foldl (fun acc n => check_reminders n acc) rs

/-! ## Store write paths (src/memory.py) -/

/-- Primitive filesystem steps performed by the Store's writers. -/
inductive FsOp where
  | makedirs (dir : String)
  | writeFinal (path content : String)
  | writeTmp (tmp content : String)
  | rename (tmp final : String)
  | appendFinal (path line : String)
  deriving DecidableEq, Repr

/-- `os.path.dirname`. -/
def dirname (p : String) : String :=
  strJoin "/" (splitChar p '/').dropLast

/-- `Memory.write_file`: `makedirs` then an in-place `open(..., "w")` write
at the final path. -/
def write_file_ops (path content : String) : List FsOp :=
  [.makedirs (dirname path), .writeFinal path content]

/-- `Memory.write_json` (the serialized text as a parameter). -/
def write_json_ops (path serialized : String) : List FsOp :=
  [.makedirs (dirname path), .writeFinal path serialized]

/-- `Memory.append_jsonl`: in-place append at the final path. -/
def append_jsonl_ops (path line : String) : List FsOp :=
  [.makedirs (dirname path), .appendFinal path line]

/-- `tempfile.mkstemp` names abstracted by the batch position. -/
def tmpName (i : Nat) (finalPath : String) : String :=
  dirname finalPath ++ "/.tmp_" ++ toString i

/-- The staging loop of `Memory.write_batch`: all temp files written first. -/
def stagingOps : Nat → List (String × String) → List FsOp
  | _, [] => []
  | i, (p, c) :: rest =>
    .makedirs (dirname p) :: .writeTmp (tmpName i p) c :: stagingOps (i + 1) rest

/-- The rename loop of `Memory.write_batch`: `os.replace` per file. -/
def renamingOps : Nat → List (String × String) → List FsOp
  | _, [] => []
  | i, (p, _) :: rest => .rename (tmpName i p) p :: renamingOps (i + 1) rest

/-- `Memory.write_batch`: stage every temp file, then rename all into
place. -/
def write_batch_ops (writes : List (String × String)) : List FsOp :=
  stagingOps 0 writes ++ renamingOps 0 writes

/-- An op that modifies a final path other than by a rename. -/
def touchesFinalDirectly (op : FsOp) : Bool :=
  match op with
  | .writeFinal _ _ => true
  | .appendFinal _ _ => true
  | _ => false

/-- "Atomic via temp-write + rename": final paths are only ever produced by
renames, never written in place. -/
def atomicTempRename (ops : List FsOp) : Bool :=
  ops.all (fun op => ¬ touchesFinalDirectly op)

def isRenameOp (op : FsOp) : Bool :=
  match op with
  | .rename _ _ => true
  | _ => false

def renamedFinal (op : FsOp) : Option String :=
  match op with
  | .rename _ f => some f
  | _ => none

/-! ## Tool executor dispatch (src/tools.py, `ToolExecutor.execute`) -/

/-- A tool call's observable outcome: a result payload, or a dict carrying
an `"error"` key (payloads abstracted as strings). -/
inductive ToolOutcome where
  | ok (payload : String)
  | errorDict (msg : String)
  deriving DecidableEq, Repr

/-- A handler either returns a payload or raises an exception whose `str`
is the `Except.error` message. -/
abbrev ToolHandler := String → Except String String

/-- `ToolExecutor.execute`: `getattr`-style dispatch (the handler table is a
parameter standing for the `_tool_*` methods); unknown names produce the
`Unknown tool` error dict, and any handler exception is caught and returned
as an error dict. -/
def executeTool (handlers : String → Option ToolHandler)
    (tool_name : String) (args : String) : ToolOutcome :=
  match handlers tool_name with
  | none => .errorDict ("Unknown tool: " ++ tool_name)
  | some h =>
    match h args with
    | .ok r => .ok r
    | .error e => .errorDict ("Tool " ++ tool_name ++ " failed: " ++ e)

/-! ## Approval workflow (src/governance.py `ApprovalState`; the
`approve_contract` handler is declared in tool_definitions.py and exercised
by tests/test_approval_workflow.py but absent from tools.py) -/

structure ApprovalVote where
  username : String
  role : String
  approved_at : String
  deriving DecidableEq, Repr

structure ApprovalState where
  tier : String := ""
  required_roles : List String := []
  threshold : ℚ := 1
  requested_at : Option String := none
  approvals : List ApprovalVote := []
  deriving DecidableEq, Repr

/-- Roles among `required_roles` lacking a recorded vote. -/
def approvalMissingRoles (s : ApprovalState) : List String :=
  s.required_roles.filter (fun r => ¬ s.approvals.any (·.role = r))

/-- Quorum: with threshold 1 all required roles must have voted; otherwise
the satisfied-role ratio must reach the threshold; no required roles means
quorum. -/
def isQuorumMet (s : ApprovalState) : Bool :=
  if s.required_roles.isEmpty then true
  else if s.threshold = 1 then (approvalMissingRoles s).isEmpty
  else
    (((s.required_roles.length - (approvalMissingRoles s).length : Nat) : ℚ) /
        (s.required_roles.length : ℚ)) ≥ s.threshold

/-- `username.strip().lstrip("@").lower()`. -/
def normalizeUsername (u : String) : String :=
  pyLower ⟨(pyStrip u).data.dropWhile (· = '@')⟩

/-- The first required role whose merged-role-map user list contains the
caller. -/
def resolveRequiredRole (merged : List (String × List String))
    (required : List String) (uname : String) : Option String :=
  required.find? (fun r => ((lookupKey merged r).getD []).contains uname)

structure ApproveResult where
  success : Bool := false
  error : Option String := none
  approved_by : Option String := none
  role : Option String := none
  already_approved : Bool := false
  quorum_met : Bool := false
  deriving DecidableEq, Repr

/-- Modelled from the spec: the `approve_contract` tool handler
(§4.3 item 4), whose implementation is missing from src/src/tools.py (only
its declaration in tool_definitions.py and tests/test_approval_workflow.py
are in the snapshot).  A vote is recorded if the normalized caller resolves
to one of the required roles via the merged role map and is not a
duplicate; duplicate votes return `success=true, already_approved=true`;
callers resolving to no required role get an error. -/
def approve_contract (merged : List (String × List String))
    (approval : Option ApprovalState) (username now : String) :
    ApproveResult × Option ApprovalState :=
  let uname := normalizeUsername username
  match approval with
  | none =>
    ({ error := some "Согласование не запущено" }, none)
  | some s =>
    match resolveRequiredRole merged s.required_roles uname with
    | none =>
      ({ error := some "Пользователь не соответствует ни одной из требуемых ролей" },
       some s)
    | some role =>
      if s.approvals.any (·.username = uname) then
        ({ success := true, approved_by := some uname, role := some role,
           already_approved := true, quorum_met := isQuorumMet s }, some s)
      else
        let s' := { s with approvals := s.approvals ++ [⟨uname, role, now⟩] }
        ({ success := true, approved_by := some uname, role := some role,
           quorum_met := isQuorumMet s' }, some s')

/-! ## Continuous planner (src/planner.py, src/planner_scoring.py)

The cycle's clock (`today` strings), the single heavy-LLM plan call
(`llmActions`: its parsed `actions` list, `none` on transport/parse
failure) and the chat-sending action dispatcher (`dispatch`: `none` when
the handler is unknown or raises) are parameters; everything else is
translated from the source.  The gather step (`_gather`) performs no LLM
calls and no chat sends — it is constructed over `memory` only — so a
cycle's LLM/chat counts come entirely from `_plan` and the dispatcher. -/

structure UncoveredMetric where
  contract_id : String
  metric_name : String
  tree_path : String := ""
  stakeholders : List String := []
  deriving DecidableEq, Repr

structure Conflict where
  ctype : String
  severity : String := ""
  title : String := ""
  contracts : List String := []
  deriving DecidableEq, Repr

structure QueueItem where
  id : String
  priority : Option Int := none
  deriving DecidableEq, Repr

structure Initiative where
  id : String := ""
  itype : String := "new_contract"
  contract_id : String := ""
  priority_score : ℚ := 0
  status : String := "active"
  created_at : Option Int := none
  updated_at : Option Int := none
  thread_id : Option String := none
  stakeholders : List String := []
  waiting_for : List String := []
  actions_taken : Nat := 0
  last_external_activity_at : Option Int := none
  next_action_after : Option Int := none
  actions_today : Nat := 0
  deriving DecidableEq, Repr

/-- `tasks/planner_state.json`; `daily_stats` maps a date string to
`(threads_started, messages_sent)`. -/
structure PlannerState where
  initiatives : List Initiative := []
  daily_stats : List (String × (Nat × Nat)) := []
  cooldowns : List (String × Int) := []
  last_plan_at : Option Int := none
  deriving DecidableEq, Repr

/-- The result of `_gather` (contracts index, coverage scan, conflict
detection, queue). -/
structure Gathered where
  contracts : List IndexEntry := []
  uncovered : List UncoveredMetric := []
  conflicts : List Conflict := []
  queue : List QueueItem := []
  deriving DecidableEq, Repr

def clampQ (q : ℚ) : ℚ := max 0 (min 1 q)

def tree_depth_score (depth : Option Int) : ℚ :=
  match depth with
  | none => 0
  | some d => clampQ (1 - (d : ℚ) / 6)

def queue_priority_score (priority : Option Int) : ℚ :=
  match priority with
  | none => 0
  | some p => clampQ (1 - ((p : ℚ) - 1) / (max (20 - 1) 1 : ℚ))

def blocker_age_score (days_blocked : ℚ) : ℚ := clampQ (days_blocked / 14)

def boolScore (b : Bool) : ℚ := if b then 1 else 0

/-- `round(score, 4)` (round-half-up on ℚ; Python's float banker's
rounding differs only on exact half-way ties of the fourth decimal). -/
def round4 (q : ℚ) : ℚ := (round (q * 10000) : ℚ) / 10000

/-- `compute_priority_score`: the weighted sum and its breakdown. -/
def compute_priority_score (depth : Option Int) (priority : Option Int)
    (days_blocked : ℚ) (stakeholder_available has_conflicts is_in_progress : Bool) :
    ℚ × List (String × ℚ) :=
  let td := tree_depth_score depth
  let qp := queue_priority_score priority
  let ba := blocker_age_score days_blocked
  let sa := boolScore stakeholder_available
  let cs := boolScore has_conflicts
  let ip := boolScore is_in_progress
  let score := 30/100 * td + 25/100 * qp + 15/100 * ba + 15/100 * sa +
    10/100 * cs + 5/100 * ip
  (round4 score,
   [("tree_depth", td), ("queue_priority", qp), ("blocker_age", ba),
    ("stakeholder_avail", sa), ("has_conflicts", cs), ("in_progress", ip)])

structure ScoredCandidate where
  contract_id : String
  metric_name : String
  score : ℚ
  breakdown : List (String × ℚ) := []
  candidate_type : String
  tree_depth : Option Int := none
  conflict_ids : List String := []
  stakeholders : List String := []
  deriving DecidableEq, Repr

/-- Stable insert keeping descending score order (earlier elements stay
before equal-scored later ones). -/
def insertDescByScore (c : ScoredCandidate) :
    List ScoredCandidate → List ScoredCandidate
  | [] => [c]
  | x :: rest =>
    if c.score ≤ x.score then x :: insertDescByScore c rest
    else c :: x :: rest

/-- `rank_candidates`: `sorted(key=score, reverse=True)` (stable). -/
def rank_candidates (cands : List ScoredCandidate) : List ScoredCandidate :=
  cands.foldl (fun acc c => insertDescByScore c acc) []

def ACTIVE_STATUSES : List String := ["active", "waiting_response", "planned"]

def activeInitiativeIds (st : PlannerState) : List String :=
  (st.initiatives.filter (fun i => ACTIVE_STATUSES.contains i.status)).map
    (·.contract_id)

/-- A cooldown key blocks while its (parsed) expiry lies in the future. -/
def cooldownActive (st : PlannerState) (key : String) (now : Int) : Bool :=
  match lookupKey st.cooldowns key with
  | none => false
  | some t => decide (now < t)

/-- Queue priority lookup (`{item["id"]: item.get("priority")}`; a later
duplicate id overwrites an earlier one). -/
def queuePriority (queue : List QueueItem) (cid : String) : Option Int :=
  (queue.reverse.find? (·.id = cid)).bind (·.priority)

/-- Contract record lookup (`{c["id"]: c}` over truthy ids; later
duplicates win). -/
def contractRecord (contracts : List IndexEntry) (cid : String) :
    Option IndexEntry :=
  (contracts.filter (fun c => c.id ≠ "")).reverse.find? (·.id = cid)

def uncoveredDepth (uc : UncoveredMetric) : Option Int :=
  if uc.tree_path = "" then none
  else some ((uc.tree_path.data.count '→' : Int))

def scoreUncovered (g : Gathered) (active : List String) :
    List ScoredCandidate :=
  g.uncovered.filterMap (fun uc =>
    if active.contains uc.contract_id then none
    else
      let depth := uncoveredDepth uc
      let sb := compute_priority_score depth (queuePriority g.queue uc.contract_id)
        0 true false false
      some { contract_id := uc.contract_id, metric_name := uc.metric_name,
             score := sb.1, breakdown := sb.2, candidate_type := "new_contract",
             tree_depth := depth, stakeholders := uc.stakeholders })

def conflictPairs (cs : List Conflict) : List (Conflict × String) :=
  cs.flatMap (fun c => c.contracts.map (fun cid => (c, cid)))

def scoreConflictPairs (g : Gathered) (st : PlannerState) (now : Int)
    (active : List String) :
    List (Conflict × String) → List String → List ScoredCandidate
  | [], _ => []
  | (c, cid) :: rest, seen =>
    if seen.contains cid then scoreConflictPairs g st now active rest seen
    else
      let seen' := cid :: seen
      if cooldownActive st ("propose_resolution:" ++ cid) now then
        scoreConflictPairs g st now active rest seen'
      else
        let name := match contractRecord g.contracts cid with
          | some e => e.name.getD cid
          | none => cid
        let sb := compute_priority_score none (queuePriority g.queue cid) 0 true
          true (active.contains cid)
        { contract_id := cid, metric_name := name, score := sb.1,
          breakdown := sb.2, candidate_type := "conflict_resolution",
          conflict_ids := [c.ctype] } ::
          scoreConflictPairs g st now active rest seen'

def staleDaysBlocked (now : Int) (c : IndexEntry) : ℚ :=
  match (match c.updated_at with
         | some t => some t
         | none => c.created_at) with
  | none => 0
  | some t => ((now - t : Int) : ℚ) / 86400

def scoreStaleReviews (g : Gathered) (now : Int) (active : List String) :
    List ScoredCandidate :=
  g.contracts.filterMap (fun c =>
    if c.status ≠ some "in_review" then none
    else if active.contains c.id then none
    else
      let days := staleDaysBlocked now c
      if days < 7 then none
      else
        let sb := compute_priority_score none (queuePriority g.queue c.id)
          days true false false
        some { contract_id := c.id, metric_name := c.name.getD c.id,
               score := sb.1, breakdown := sb.2,
               candidate_type := "stale_review" })

/-- `ContinuousPlanner._score`: uncovered metrics, conflict contracts (with
dedup and cooldown) and stale reviews, ranked by descending score. -/
def planner_score (g : Gathered) (st : PlannerState) (now : Int) :
    List ScoredCandidate :=
  let active := activeInitiativeIds st
  rank_candidates
    (scoreUncovered g active ++
     scoreConflictPairs g st now active (conflictPairs g.conflicts) [] ++
     scoreStaleReviews g now active)

def PLANNER_MAX_ACTIVE_INITIATIVES : Nat := 3
def PLANNER_MAX_NEW_THREADS_PER_DAY : Nat := 2
def PLANNER_MAX_MESSAGES_PER_DAY : Nat := 8
def PLANNER_MAX_ACTIONS_PER_INITIATIVE_PER_DAY : Nat := 2
def PLANNER_COOLDOWN_HOURS : Int := 48
def PLANNER_WAIT_BEFORE_FOLLOWUP_HOURS : Int := 24
def PLANNER_STALE_INITIATIVE_DAYS : Int := 14

/-- `_abandon_stale_initiatives`: abandon non-terminal initiatives whose
last update is `≥ PLANNER_STALE_INITIATIVE_DAYS` old, then reset every
`actions_today` (new day). -/
def abandonStaleInitiatives (st : PlannerState) (now : Int) : PlannerState :=
  let inits := st.initiatives.map (fun i =>
    if ["completed", "abandoned"].contains i.status then i
    else
      match (match i.updated_at with
             | some t => some t
             | none => i.created_at) with
      | none => i
      | some t =>
        if PLANNER_STALE_INITIATIVE_DAYS ≤ Int.fdiv (now - t) 86400 then
          { i with status := "abandoned", updated_at := some now }
        else i)
  { st with initiatives := inits.map (fun i => { i with actions_today := 0 }) }

/-- One action of the parsed LLM plan. -/
structure PAction where
  atype : String := ""
  contract_id : String := ""
  target_user : String := ""
  message_hint : String := ""
  deriving DecidableEq, Repr

/-- Dispatcher result metadata (relevant field only). -/
structure DispatchResult where
  post_id : String := ""
  deriving DecidableEq, Repr

/-- `_check_limits`: daily message cap; per-day thread cap and active-
initiative cap for `start_thread`; cooldown; per-initiative daily action
cap; follow-up wait. -/
def check_limits (action : PAction) (st : PlannerState) (daily : Nat × Nat)
    (now : Int) : Bool :=
  if PLANNER_MAX_MESSAGES_PER_DAY ≤ daily.2 then false
  else if action.atype = "start_thread" ∧
      PLANNER_MAX_NEW_THREADS_PER_DAY ≤ daily.1 then false
  else if action.atype = "start_thread" ∧
      PLANNER_MAX_ACTIVE_INITIATIVES ≤ (activeInitiativeIds st).length then false
  else if cooldownActive st (action.atype ++ ":" ++ action.contract_id) now then
    false
  else if st.initiatives.any (fun i => i.contract_id = action.contract_id ∧
      PLANNER_MAX_ACTIONS_PER_INITIATIVE_PER_DAY ≤ i.actions_today) then false
  else if action.atype = "follow_up" ∧ st.initiatives.any
      (fun i => decide (i.contract_id = action.contract_id) &&
        (match i.next_action_after with
         | some t => decide (now < t)
         | none => false)) then false
  else true

def pad3 (n : Nat) : String :=
  if n < 10 then "00" ++ toString n
  else if n < 100 then "0" ++ toString n
  else toString n

/-- `_get_or_create_initiative`: position of the (possibly fresh)
initiative for the action's contract. -/
def get_or_create_initiative (action : PAction) (st : PlannerState)
    (cands : List ScoredCandidate) (now : Int) (todayId : String) :
    PlannerState × Nat :=
  match st.initiatives.findIdx? (fun i => i.contract_id = action.contract_id ∧
      ¬ ["completed", "abandoned"].contains i.status) with
  | some idx => (st, idx)
  | none =>
    let fromCand := cands.find? (·.contract_id = action.contract_id)
    let ctype := match fromCand with
      | some c => c.candidate_type
      | none => "new_contract"
    let score : ℚ := match fromCand with
      | some c => c.score
      | none => 0
    let stakeholders := match fromCand with
      | some c => c.stakeholders
      | none => []
    let existing_today := (st.initiatives.filter
      (fun i => strStartsWith i.id ("init_" ++ todayId))).length
    let init : Initiative :=
      { id := "init_" ++ todayId ++ "_" ++ pad3 (existing_today + 1),
        itype := ctype, contract_id := action.contract_id,
        priority_score := score, status := "active",
        created_at := some now, updated_at := some now,
        stakeholders := stakeholders }
    ({ st with initiatives := st.initiatives ++ [init] }, st.initiatives.length)

def stripOneAt (t : String) : String :=
  if strStartsWith t "@" then strDrop t 1 else t

/-- Post-dispatch initiative mutation: append the result, stamp
`updated_at`, bump `actions_today`; `start_thread` stores the thread id;
`ask_question`/`follow_up` transition to `waiting_response`, extend
`waiting_for` and set the follow-up wait. -/
def applyActionToInitiative (action : PAction) (res : DispatchResult)
    (now : Int) (i : Initiative) : Initiative :=
  let i := { i with actions_taken := i.actions_taken + 1,
                    updated_at := some now,
                    actions_today := i.actions_today + 1 }
  let i := if action.atype = "start_thread" ∧ res.post_id ≠ "" then
      { i with thread_id := some res.post_id }
    else i
  if action.atype = "ask_question" ∨ action.atype = "follow_up" then
    let target := stripOneAt action.target_user
    let waiting :=
      if target ≠ "" ∧ ¬ i.waiting_for.contains target then
        i.waiting_for ++ [target]
      else i.waiting_for
    { i with status := "waiting_response", waiting_for := waiting,
             next_action_after :=
               some (now + PLANNER_WAIT_BEFORE_FOLLOWUP_HOURS * 3600) }
  else i

inductive PlannerLogEntry where
  | cycleComplete (candidates actions : Nat)
  | actionExecuted (action_type contract_id : String)
  deriving DecidableEq, Repr

structure CycleAcc where
  st : PlannerState
  daily : Nat × Nat
  executed : Nat
  chat : Nat
  log : List PlannerLogEntry
  deriving Repr

/-- The check-and-execute loop of `_run_cycle`; each successful dispatch is
one chat send (the dispatcher handlers send exactly one channel message and
return metadata; `none` covers unknown action types and failures). -/
def executeActionsLoop (dispatch : PAction → Initiative → Option DispatchResult)
    (cands : List ScoredCandidate) (now : Int) (todayId : String) :
    List PAction → CycleAcc → CycleAcc
  | [], acc => acc
  | action :: rest, acc =>
    if ¬ check_limits action acc.st acc.daily now then
      executeActionsLoop dispatch cands now todayId rest acc
    else
      let p := get_or_create_initiative action acc.st cands now todayId
      let init := (p.1.initiatives.get? p.2).getD {}
      match dispatch action init with
      | none =>
        executeActionsLoop dispatch cands now todayId rest { acc with st := p.1 }
      | some res =>
        let updated := applyActionToInitiative action res now init
        let st2 := { p.1 with initiatives := p.1.initiatives.set p.2 updated }
        let daily' :=
          ((if action.atype = "start_thread" then acc.daily.1 + 1 else acc.daily.1),
           acc.daily.2 + 1)
        let st3 :=
          if action.atype = "propose_resolution" ∨ action.atype = "follow_up" then
            { st2 with cooldowns :=
                (setKey st2.cooldowns (action.atype ++ ":" ++ action.contract_id)
                  (now + PLANNER_COOLDOWN_HOURS * 3600)) }
          else st2
        executeActionsLoop dispatch cands now todayId rest
          { st := st3, daily := daily', executed := acc.executed + 1,
            chat := acc.chat + 1,
            log := acc.log ++ [.actionExecuted action.atype action.contract_id] }

structure CycleOutcome where
  state : PlannerState
  llmCalls : Nat
  chatSends : Nat
  log : List PlannerLogEntry
  deriving Repr

/-- `ContinuousPlanner._run_cycle`: housekeeping, score, plan (one LLM call
unless there are no candidates), check-and-execute, persist; the appended
planner-log records are collected in `log`. -/
def run_cycle (dispatch : PAction → Initiative → Option DispatchResult)
    (llmActions : Option (List PAction)) (g : Gathered) (st0 : PlannerState)
    (now : Int) (today todayId : String) : CycleOutcome :=
  let st := abandonStaleInitiatives st0 now
  let candidates := planner_score g st now
  if candidates.isEmpty then
    { state := { st with last_plan_at := some now }, llmCalls := 0,
      chatSends := 0, log := [.cycleComplete 0 0] }
  else
    let actions := (llmActions.getD []).take 3
    if actions.isEmpty then
      { state := { st with last_plan_at := some now }, llmCalls := 1,
        chatSends := 0, log := [.cycleComplete candidates.length 0] }
    else
      let daily0 := (lookupKey st.daily_stats today).getD (0, 0)
      let acc := executeActionsLoop dispatch candidates now todayId actions
        ⟨st, daily0, 0, 0, []⟩
      let stF := { acc.st with
        daily_stats := setKey acc.st.daily_stats today acc.daily,
        last_plan_at := some now }
      { state := stF, llmCalls := 1, chatSends := acc.chat,
        log := acc.log ++ [.cycleComplete candidates.length acc.executed] }

/-! ## Router (src/router.py)

Each `re.search` fast-path pattern is embedded as a hand-written scanner:
`scan` tries the pattern at every position left to right (tracking the
previous character for `\b`), and each pattern consumes greedily — for
these patterns (whitespace runs and character classes followed by tokens
outside the class) greedy matching coincides with the regex's backtracking
semantics.  Python's Unicode `\w` is modelled for ASCII and Cyrillic, the
alphabets of the patterns. -/

/-- `\w` (ASCII alphanumerics, underscore, Cyrillic letters). -/
def isWordCh (c : Char) : Bool :=
  c.isAlphanum ∨ c = '_' ∨ (0x400 ≤ c.toNat ∧ c.toNat ≤ 0x4FF)

/-- `\b` before a pattern that starts with a word character. -/
def boundaryOk (prev : Option Char) : Bool :=
  match prev with
  | none => true
  | some p => ¬ isWordCh p

/-- `\b` after a token ending in a word character. -/
def boundaryAfter (cs : List Char) : Bool :=
  match cs with
  | [] => true
  | c :: _ => ¬ isWordCh c

/-- Case-insensitive literal (IGNORECASE via `pyCharLower`). -/
def eatLit : List Char → List Char → Option (List Char)
  | [], cs => some cs
  | _, [] => none
  | p :: ps, c :: cs =>
    if pyCharLower c = pyCharLower p then eatLit ps cs else none

def eatLitS (w : String) (cs : List Char) : Option (List Char) :=
  eatLit w.data cs

/-- `\s+` (greedy). -/
def eatWs1 (cs : List Char) : Option (List Char) :=
  match cs with
  | c :: rest =>
    if c.isWhitespace then some (rest.dropWhile Char.isWhitespace) else none
  | [] => none

/-- `\s*`. -/
def eatWs0 (cs : List Char) : List Char :=
  cs.dropWhile Char.isWhitespace

/-- A greedy non-empty character-class run (`[...]+`). -/
def eatClass1 (f : Char → Bool) (cs : List Char) :
    Option (List Char × List Char) :=
  let run := cs.takeWhile f
  if run.isEmpty then none else some (run, cs.drop run.length)

/-- Exactly `n` characters of a class (`[...]{n}`). -/
def eatCount (f : Char → Bool) : Nat → List Char → Option (List Char × List Char)
  | 0, cs => some ([], cs)
  | _ + 1, [] => none
  | n + 1, c :: cs =>
    if f c then
      match eatCount f n cs with
      | some (run, rest) => some (c :: run, rest)
      | none => none
    else none

/-- `[a-z0-9_]`, IGNORECASE. -/
def isIdCh (c : Char) : Bool :=
  ('a' ≤ pyCharLower c ∧ pyCharLower c ≤ 'z') ∨ c.isDigit ∨ c = '_'

/-- `[a-z0-9_\-]`, IGNORECASE. -/
def isIdDashCh (c : Char) : Bool :=
  isIdCh c ∨ c = '-'

/-- Try a positional matcher at every position, left to right, feeding it
the previous character (for `\b`), as `re.search` does. -/
def scanAux {α : Type} (m : Option Char → List Char → Option α) :
    Option Char → List Char → Option α
  | prev, [] => m prev []
  | prev, c :: rest =>
    match m prev (c :: rest) with
    | some r => some r
    | none => scanAux m (some c) rest

def scan {α : Type} (m : Option Char → List Char → Option α) (s : String) :
    Option α :=
  scanAux m none s.data

/-- `\bистори[яи]\s+контракт[а]?\s+([a-z0-9_]+)\b` (group kept as matched). -/
def historyAt (prev : Option Char) (cs : List Char) : Option String :=
  if ¬ boundaryOk prev then none
  else do
    let rest ← eatLitS "истори" cs
    let rest ← match rest with
      | c :: r =>
        if pyCharLower c = 'я' ∨ pyCharLower c = 'и' then some r else none
      | [] => none
    let rest ← eatWs1 rest
    let rest ← eatLitS "контракт" rest
    let rest := match rest with
      | c :: r => if pyCharLower c = 'а' then r else c :: r
      | [] => []
    let rest ← eatWs1 rest
    let (run, rest2) ← eatClass1 isIdCh rest
    if boundaryAfter rest2 then some (String.mk run) else none

/-- `\bпокажи\s+верс(ию|ию|ии)\s+([a-z0-9_]+)\s+([0-9]{8}T[0-9]{6}\.[0-9]{6}Z(?:_prev)?)\b`. -/
def versionAt (prev : Option Char) (cs : List Char) : Option (String × String) :=
  if ¬ boundaryOk prev then none
  else do
    let rest ← eatLitS "покажи" cs
    let rest ← eatWs1 rest
    let rest ← eatLitS "верс" rest
    let rest ← (eatLitS "ию" rest).orElse (fun _ => eatLitS "ии" rest)
    let rest ← eatWs1 rest
    let (cid, rest) ← eatClass1 isIdCh rest
    let rest ← eatWs1 rest
    let (d8, rest) ← eatCount Char.isDigit 8 rest
    let rest ← eatLitS "T" rest
    let (d6, rest) ← eatCount Char.isDigit 6 rest
    let rest ← eatLitS "." rest
    let (d6b, rest) ← eatCount Char.isDigit 6 rest
    let rest ← eatLitS "Z" rest
    let (suffix, rest) := match eatLitS "_prev" rest with
      | some r => ("_prev", r)
      | none => ("", rest)
    if boundaryAfter rest then
      some (String.mk cid,
        String.mk d8 ++ "T" ++ String.mk d6 ++ "." ++ String.mk d6b ++ "Z" ++ suffix)
    else none

/-- `\b<w1>\s+<w2>\s+([a-z0-9_\-]+)\b` — the shared shape of the diff /
show-contract / show-draft / relationships / requirements / status
fast-paths (the two literal words vary). -/
def twoWordsIdAt (w1 w2 : String) (prev : Option Char) (cs : List Char) :
    Option String :=
  if ¬ boundaryOk prev then none
  else do
    let rest ← eatLitS w1 cs
    let rest ← eatWs1 rest
    let rest ← eatLitS w2 rest
    let rest ← eatWs1 rest
    let (run, rest2) ← eatClass1 isIdDashCh rest
    if boundaryAfter rest2 then some (String.mk run) else none

/-- `\b(аудит|проверь)\s+конфликт(ы|ов)?\b`. -/
def conflictsAt (prev : Option Char) (cs : List Char) : Option Unit :=
  if ¬ boundaryOk prev then none
  else do
    let rest ← (eatLitS "аудит" cs).orElse (fun _ => eatLitS "проверь" cs)
    let rest ← eatWs1 rest
    let rest ← eatLitS "конфликт" rest
    match eatLitS "ы" rest with
    | some r => if boundaryAfter r then some () else none
    | none =>
      match eatLitS "ов" rest with
      | some r => if boundaryAfter r then some () else none
      | none => if boundaryAfter rest then some () else none

def eatPhrase (ws : List String) (cs : List Char) : Option (List Char) :=
  match ws with
  | [] => some cs
  | [w] => eatLitS w cs
  | w :: w2 :: rest => do
    let r ← eatLitS w cs
    let r ← eatWs1 r
    eatPhrase (w2 :: rest) r

/-- `\b(контракты\s+на\s+пересмотр|аудит\s+пересмотра|проверь\s+пересмотр)\b`. -/
def reviewAuditAt (prev : Option Char) (cs : List Char) : Option Unit :=
  if ¬ boundaryOk prev then none
  else
    let alt1 := (eatPhrase ["контракты", "на", "пересмотр"] cs).bind
      (fun r => if boundaryAfter r then some () else none)
    let alt2 := (eatPhrase ["аудит", "пересмотра"] cs).bind
      (fun r => if boundaryAfter r then some () else none)
    let alt3 := (eatPhrase ["проверь", "пересмотр"] cs).bind
      (fun r => if boundaryAfter r then some () else none)
    (alt1.orElse (fun _ => alt2)).orElse (fun _ => alt3)

/-- `\bпокажи\s+политику\s+(tier_[123])\b` (group lowercased). -/
def policyAt (prev : Option Char) (cs : List Char) : Option String :=
  if ¬ boundaryOk prev then none
  else do
    let rest ← eatLitS "покажи" cs
    let rest ← eatWs1 rest
    let rest ← eatLitS "политику" rest
    let rest ← eatWs1 rest
    let rest ← eatLitS "tier_" rest
    match rest with
    | c :: r =>
      if (c = '1' ∨ c = '2' ∨ c = '3') ∧ boundaryAfter r then
        some ("tier_" ++ String.singleton c)
      else none
    | [] => none

/-- `\bкакие\s+роли\s+нужны\s+для\s+([a-z0-9_\-]+)\b`. -/
def requirementsAt (prev : Option Char) (cs : List Char) : Option String :=
  if ¬ boundaryOk prev then none
  else do
    let rest ← eatPhrase ["какие", "роли", "нужны", "для"] cs
    let rest ← eatWs1 rest
    let (run, rest2) ← eatClass1 isIdDashCh rest
    if boundaryAfter rest2 then some (String.mk run) else none

/-- `\b(согласую|одобряю|approve)\s+(?:контракт\s+)?([a-z0-9_\-]+)\b`. -/
def approveAt (prev : Option Char) (cs : List Char) : Option String :=
  if ¬ boundaryOk prev then none
  else do
    let rest ← ((eatLitS "согласую" cs).orElse
      (fun _ => eatLitS "одобряю" cs)).orElse (fun _ => eatLitS "approve" cs)
    let rest ← eatWs1 rest
    let rest := match (eatLitS "контракт" rest).bind eatWs1 with
      | some r => r
      | none => rest
    let (run, rest2) ← eatClass1 isIdDashCh rest
    if boundaryAfter rest2 then some (String.mk run) else none

/-- `\b(запусти|начни)\s+согласован(?:ие|ия)\s+([a-z0-9_\-]+)\b`. -/
def startApprovalAt (prev : Option Char) (cs : List Char) : Option String :=
  if ¬ boundaryOk prev then none
  else do
    let rest ← (eatLitS "запусти" cs).orElse (fun _ => eatLitS "начни" cs)
    let rest ← eatWs1 rest
    let rest ← eatLitS "согласован" rest
    let rest ← (eatLitS "ие" rest).orElse (fun _ => eatLitS "ия" rest)
    let rest ← eatWs1 rest
    let (run, rest2) ← eatClass1 isIdDashCh rest
    if boundaryAfter rest2 then some (String.mk run) else none

def CONTRACT_STATUSES : List String :=
  ["draft", "in_review", "agreed", "approved", "active", "deprecated", "archived"]

def eatStatusAlt (cs : List Char) : Option (String × List Char) :=
  (CONTRACT_STATUSES.filterMap (fun w =>
    match eatLitS w cs with
    | some r => if boundaryAfter r then some (w, r) else none
    | none => none)).head?

/-- `\b(переведи|поставь)\s+статус\s+([a-z0-9_\-]+)\s+(draft|...|archived)\b`. -/
def setStatusAt (prev : Option Char) (cs : List Char) :
    Option (String × String) :=
  if ¬ boundaryOk prev then none
  else do
    let rest ← (eatLitS "переведи" cs).orElse (fun _ => eatLitS "поставь" cs)
    let rest ← eatWs1 rest
    let rest ← eatLitS "статус" rest
    let rest ← eatWs1 rest
    let (run, rest) ← eatClass1 isIdDashCh rest
    let rest ← eatWs1 rest
    let (st, _) ← eatStatusAlt rest
    some (String.mk run, st)

/-- `\bкакой\s+статус\s+([a-z0-9_\-]+)\b`. -/
def getStatusAt (prev : Option Char) (cs : List Char) : Option String :=
  if ¬ boundaryOk prev then none
  else do
    let rest ← eatPhrase ["какой", "статус"] cs
    let rest ← eatWs1 rest
    let (run, rest2) ← eatClass1 isIdDashCh rest
    if boundaryAfter rest2 then some (String.mk run) else none

/-- `\b([a-z0-9_\-]{3,})\b\s*$` over the stripped message (save keyword
fast-path's trailing contract id). -/
def trailingIdAt (prev : Option Char) (cs : List Char) : Option String :=
  if ¬ boundaryOk prev then none
  else do
    let (run, rest) ← eatClass1 isIdDashCh cs
    if 3 ≤ run.length ∧ (rest.dropWhile Char.isWhitespace).isEmpty then
      some (String.mk run)
    else none

/-- `\b<word>\s*lead\b\s*[—\-:]\s*@(.+)$` with `<word>` ∈ {data, circle};
the group is stripped and lowercased as in the source. -/
def roleAt (word : String) (prev : Option Char) (cs : List Char) :
    Option String :=
  if ¬ boundaryOk prev then none
  else do
    let rest ← eatLitS word cs
    let rest := eatWs0 rest
    let rest ← eatLitS "lead" rest
    if ¬ boundaryAfter rest then none
    else
      let rest := eatWs0 rest
      match rest with
      | sep :: rest =>
        if sep = '—' ∨ sep = '-' ∨ sep = ':' then
          let rest := eatWs0 rest
          match rest with
          | '@' :: rest =>
            if rest.isEmpty then none
            else some (pyLower (pyStrip (String.mk rest)))
          | _ => none
        else none
      | [] => none

/-- The `_TRANSLIT` table (lowercase Cyrillic → Latin). -/
def translitChar (c : Char) : Option String :=
  match c with
  | 'а' => some "a" | 'б' => some "b" | 'в' => some "v" | 'г' => some "g"
  | 'д' => some "d" | 'е' => some "e" | 'ё' => some "yo" | 'ж' => some "zh"
  | 'з' => some "z" | 'и' => some "i" | 'й' => some "y" | 'к' => some "k"
  | 'л' => some "l" | 'м' => some "m" | 'н' => some "n" | 'о' => some "o"
  | 'п' => some "p" | 'р' => some "r" | 'с' => some "s" | 'т' => some "t"
  | 'у' => some "u" | 'ф' => some "f" | 'х' => some "kh" | 'ц' => some "ts"
  | 'ч' => some "ch" | 'ш' => some "sh" | 'щ' => some "sch" | 'ъ' => some ""
  | 'ы' => some "y" | 'ь' => some "" | 'э' => some "e" | 'ю' => some "yu"
  | 'я' => some "ya"
  | _ => none

/-- `_slugify`: transliterate to a lowercase ASCII snake_case slug, capped
at 60 characters. -/
def slugify (text : String) : String :=
  let t := pyStrip (pyLower text)
  let pieces := t.data.map (fun ch =>
    match translitChar ch with
    | some s => s
    | none =>
      if ch.toNat < 128 ∧ ch.isAlphanum then String.singleton ch
      else if ch = ' ' ∨ ch = '-' ∨ ch = '_' then "_"
      else "")
  let joined := String.join pieces
  let slug := strJoin "_" ((splitChar joined '_').filter (· ≠ ""))
  ⟨slug.data.take 60⟩

def CHEAP_TYPES : List String := ["contract_request", "status_request", "irrelevant"]

def HEAVY_TYPES : List String :=
  ["contract_discussion", "problem_report", "new_contract_init",
   "general_question", "profile_intro"]

structure RouteResult where
  rtype : String
  entity : Option String := none
  load_files : List String := []
  model : String := "heavy"
  llmUsed : Bool := false
  deriving DecidableEq, Repr

/-- The cheap classifier's JSON-extracted output with the `data.get`
defaults already applied (the LLM call, fenced-block stripping and
JSON-repair are abstracted into this parameter; the parse-failure fallback
is the default value). -/
structure RouteLlmData where
  rtype : String := "general_question"
  entity : Option String := none
  load_files : List String := []
  model : String := "heavy"
  deriving DecidableEq, Repr

def isAsciiString (s : String) : Bool := s.data.all (·.toNat < 128)

/-- The classifier tail of `route`: force model by type class, and for
`new_contract_init` pin the bootstrap `load_files` and slug-transliterate a
non-ASCII entity. -/
def routePostProcess (d : RouteLlmData) : RouteResult :=
  let model :=
    if CHEAP_TYPES.contains d.rtype then "cheap"
    else if HEAVY_TYPES.contains d.rtype then "heavy"
    else d.model
  let r : RouteResult :=
    { rtype := d.rtype, entity := d.entity, load_files := d.load_files,
      model := model, llmUsed := true }
  if d.rtype = "new_contract_init" then
    { r with
      load_files := ["context/company.md", "context/metrics_tree.md"],
      entity := match d.entity with
        | some e => if e ≠ "" ∧ ¬ isAsciiString e then some (slugify e) else some e
        | none => none }
  else r

def SAVE_KEYWORDS : List String :=
  ["зафиксир", "сохрани", "сохранить", "финальная версия",
   "опубликуй финальную", "опубликовать финальную"]

def SAVE_STOPWORDS : List String :=
  ["контракт", "версия", "финальная", "сохрани", "зафиксируй"]

def fpHistory (msg : String) : Option RouteResult :=
  (scan historyAt msg).map (fun cid =>
    { rtype := "contract_history", entity := some cid, model := "cheap" })

def fpVersion (msg : String) : Option RouteResult :=
  (scan versionAt msg).map (fun p =>
    { rtype := "contract_version", entity := some (p.1 ++ ":" ++ p.2),
      model := "cheap" })

def fpDiff (msg : String) : Option RouteResult :=
  (scan (twoWordsIdAt "покажи" "diff") msg).map (fun cid =>
    { rtype := "contract_diff", entity := some (pyLower cid), model := "cheap" })

def fpShowContract (msg : String) : Option RouteResult :=
  (scan (twoWordsIdAt "покажи" "контракт") msg).map (fun cid =>
    { rtype := "show_contract", entity := some (pyLower cid), model := "cheap" })

def fpShowDraft (msg : String) : Option RouteResult :=
  (scan (twoWordsIdAt "покажи" "draft") msg).map (fun cid =>
    { rtype := "show_draft", entity := some (pyLower cid), model := "cheap" })

def fpShowDraftRu (msg : String) : Option RouteResult :=
  (scan (twoWordsIdAt "покажи" "черновик") msg).map (fun cid =>
    { rtype := "show_draft", entity := some (pyLower cid), model := "cheap" })

def fpConflicts (msg : String) : Option RouteResult :=
  (scan conflictsAt msg).map (fun _ =>
    { rtype := "conflicts_audit", entity := none,
      load_files := ["contracts/index.json"], model := "cheap" })

def fpRelationships (msg : String) : Option RouteResult :=
  (scan (twoWordsIdAt "покажи" "связи") msg).map (fun cid =>
    { rtype := "relationships_show", entity := some (pyLower cid),
      load_files := ["contracts/relationships.json", "contracts/index.json"],
      model := "cheap" })

def fpReviewAudit (msg : String) : Option RouteResult :=
  (scan reviewAuditAt msg).map (fun _ =>
    { rtype := "governance_review_audit", entity := none,
      load_files := ["contracts/index.json"], model := "cheap" })

def fpPolicy (msg : String) : Option RouteResult :=
  (scan policyAt msg).map (fun tier =>
    { rtype := "governance_policy_show", entity := some tier,
      load_files := ["context/governance.json", "context/roles.json"],
      model := "cheap" })

def fpRequirements (msg : String) : Option RouteResult :=
  (scan requirementsAt msg).map (fun cid =>
    { rtype := "governance_requirements_for", entity := some (pyLower cid),
      load_files := ["context/governance.json", "context/roles.json",
                     "contracts/index.json"],
      model := "cheap" })

def fpApprove (msg : String) : Option RouteResult :=
  (scan approveAt msg).map (fun cid0 =>
    let cid := pyLower cid0
    { rtype := "contract_discussion", entity := some cid,
      load_files := ["drafts/" ++ cid ++ "_discussion.json",
                     "contracts/" ++ cid ++ ".md", "drafts/" ++ cid ++ ".md"],
      model := "heavy" })

def fpStartApproval (msg : String) : Option RouteResult :=
  (scan startApprovalAt msg).map (fun cid0 =>
    let cid := pyLower cid0
    { rtype := "contract_discussion", entity := some cid,
      load_files := ["drafts/" ++ cid ++ "_discussion.json",
                     "drafts/" ++ cid ++ ".md", "contracts/" ++ cid ++ ".md",
                     "context/governance.json"],
      model := "heavy" })

def fpSetStatus (msg : String) : Option RouteResult :=
  (scan setStatusAt msg).map (fun p =>
    { rtype := "lifecycle_set_status",
      entity := some (pyLower p.1 ++ ":" ++ pyLower p.2),
      load_files := ["contracts/index.json"], model := "cheap" })

def fpGetStatus (msg : String) : Option RouteResult :=
  (scan getStatusAt msg).map (fun cid =>
    { rtype := "lifecycle_get_status", entity := some (pyLower cid),
      load_files := ["contracts/index.json"], model := "cheap" })

def fpSaveKeywords (msg : String) : Option RouteResult :=
  if SAVE_KEYWORDS.any (fun k => strContains (pyLower msg) k) then
    match scan trailingIdAt (pyStrip msg) with
    | some cid0 =>
      let cid := pyLower cid0
      if SAVE_STOPWORDS.contains cid then none
      else
        some { rtype := "contract_discussion", entity := some cid,
               load_files := ["contracts/index.json", "drafts/" ++ cid ++ ".md",
                              "drafts/" ++ cid ++ "_discussion.json"],
               model := "heavy" }
    | none => none
  else none

def roleLineAssign (line : String) : Option (String × String) :=
  match scan (roleAt "data") line with
  | some u => some ("data_lead", u)
  | none =>
    match scan (roleAt "circle") line with
    | some u => some ("circle_lead", u)
    | none => none

def fpRolesAssign (msg : String) : Option RouteResult :=
  let assignments := (pySplitLines msg).filterMap (fun l =>
    let line := pyStrip l
    if line = "" then none else roleLineAssign line)
  if assignments.isEmpty then none
  else
    some { rtype := "roles_assign",
           entity := some (strJoin ","
             (assignments.map (fun p => p.1 ++ ":" ++ p.2))),
           load_files := ["tasks/roles.json", "context/roles.json"],
           model := "cheap" }

/-- `route`: the deterministic fast-paths in source order, then the cheap
classifier tail (`llmData` abstracts the classifier call; `llmUsed` is set
only on that tail).  `username`, `channel_type` and the thread context only
feed the classifier prompt. -/
def route (llmData : RouteLlmData) (username message channel_type : String) :
    RouteResult :=
  match (((((((((((((((((fpHistory message).orElse
    (fun _ => fpVersion message)).orElse
    (fun _ => fpDiff message)).orElse
    (fun _ => fpShowContract message)).orElse
    (fun _ => fpShowDraft message)).orElse
    (fun _ => fpShowDraftRu message)).orElse
    (fun _ => fpConflicts message)).orElse
    (fun _ => fpRelationships message)).orElse
    (fun _ => fpReviewAudit message)).orElse
    (fun _ => fpPolicy message)).orElse
    (fun _ => fpRequirements message)).orElse
    (fun _ => fpApprove message)).orElse
    (fun _ => fpStartApproval message)).orElse
    (fun _ => fpSetStatus message)).orElse
    (fun _ => fpGetStatus message)).orElse
    (fun _ => fpSaveKeywords message)).orElse
    (fun _ => fpRolesAssign message)) with
  | some r => r
  | none => routePostProcess llmData

/-- The agent intents handled without an LLM call.  Modelled from the spec
(§4.2 "Fast-paths bypass the LLM entirely for: role assignment,
history/version/diff/show/conflicts/relationships/policy/requirements/
status-get/status-set"); the snapshot's src/src/agent.py is an earlier
revision lacking the roles/diff/show fast-paths. -/
def AGENT_FASTPATH_TYPES : List String :=
  ["roles_assign", "contract_history", "contract_version", "contract_diff",
   "show_contract", "show_draft", "conflicts_audit", "relationships_show",
   "governance_policy_show", "governance_requirements_for",
   "governance_review_audit", "lifecycle_get_status", "lifecycle_set_status"]

/-- Whether processing a route of this intent invokes the LLM (everything
outside the agent fast-paths builds a prompt and calls the model). -/
def agentCallsLLM (rtype : String) : Bool :=
  ¬ AGENT_FASTPATH_TYPES.contains rtype

/-- `role:user,...` pairs from a `roles_assign` route entity. -/
def parseRoleEntity (ent : String) : List (String × String) :=
  (splitChar ent ',').filterMap (fun p => splitFirst? p ':')

/-- Modelled from the spec: the agent's `roles_assign` fast-path handler
(§4.2 "role assignment (persists merged roles, returns a structured
confirmation)", §4.3 item 5), absent from the snapshot's agent.py and
exercised by tests/test_roles_assign_persistence.py.  Each mention is
resolved via the chat client when possible, lowercased, merged into the
runtime roles (`tasks/roles.json`) without case-insensitive duplicates; the
reply is a structured confirmation naming the file. -/
def roles_assign_handler (resolve : String → Option String)
    (runtime : RolesFile) (ent : String) :
    String × List (String × List String) :=
  let pairs := parseRoleEntity ent
  let roles0 := runtime.getD []
  let rolesF := pairs.foldl (fun acc p =>
    let uname := pyLower ((resolve p.2).getD p.2)
    let users := (lookupKey acc p.1).getD []
    if (users.map pyLower).contains uname then acc
    else setKey acc p.1 (users ++ [uname])) roles0
  ("✅ Роли обновлены (tasks/roles.json): " ++
     strJoin ", " (pairs.map (fun p =>
       p.1 ++ " → @" ++ pyLower ((resolve p.2).getD p.2))),
   rolesF)

/-- Counterexample message for C4: the mentions are of the claimed form,
but `@approve` also matches the earlier approval-vote fast-path. -/
def cexRolesMessage : String := "Data Lead — @approve\nCircle Lead — @korabovtsev"

/-- The literal E3 message. -/
def e3Message : String := "Data Lead — @pavelpetrin\nCircle Lead — @korabovtsev"

/-- Concrete reminder used by the C7 witness. -/
def witnessReminder : Reminder := { next_reminder := some 0 }

def witnessReminders : List Reminder := [witnessReminder]

/-! ## Theorems: save_contract gates and validator linkage -/

lemma code_of_missingSection {sections : List (String × String)}
    {i : ValidationIssue} (h : i ∈ missingSectionIssues sections) :
    i.code = "missing_section" := by
  unfold missingSectionIssues at h
  obtain ⟨s, -, rfl⟩ := List.mem_map.mp h
  rfl

lemma code_of_optionalSection {sections : List (String × String)}
    {i : ValidationIssue} (h : i ∈ optionalSectionWarnings sections) :
    i.code = "missing_optional_section" := by
  unfold optionalSectionWarnings at h
  obtain ⟨s, -, rfl⟩ := List.mem_map.mp h
  rfl

lemma code_of_formulaWarnings {formula : String} {i : ValidationIssue}
    (h : i ∈ formulaWarnings formula) :
    i.code = "formula_missing_human" ∨ i.code = "formula_missing_sql" := by
  unfold formulaWarnings at h
  split at h
  · simp at h
  · rcases List.mem_append.mp h with h' | h' <;> split at h' <;>
      simp_all

lemma mem_linkageIssues_iff {linkage : String} {i : ValidationIssue}
    (hne : linkage ≠ "") :
    i ∈ linkageIssues linkage ↔
      (strContains (pyLower linkage) "extra time" = false ∨
        ARROW_PATTERNS.any (fun a => strContains linkage a) = false) ∧
      i = ⟨"missing_extra_time_path",
           "В секции «Связь с Extra Time» должен быть путь вида «X → ... → Extra Time»"⟩ := by
  by_cases hA : strContains (pyLower linkage) "extra time" <;>
    by_cases hB : ARROW_PATTERNS.any (fun a => strContains linkage a) <;>
      simp [linkageIssues, hne, hA, hB]

/-- C8: with the «Связь с Extra Time» section present and non-empty, the
validator emits `missing_extra_time_path` iff the section text lacks the
literal "extra time" (case-insensitively) or lacks every accepted arrow. -/
theorem validator_extra_time_linkage (md s : String)
    (hs : lookupKey (extractSections md) "Связь с Extra Time" = some s)
    (hne : s ≠ "") :
    "missing_extra_time_path" ∈ (validate_contract md).issues.map (·.code) ↔
      (strContains (pyLower s) "extra time" = false ∨
        ARROW_PATTERNS.any (fun a => strContains s a) = false) := by
  unfold validate_contract
  simp only [List.map_append, List.mem_append, List.mem_map, hs, Option.getD_some]
  constructor
  · rintro ((⟨i, hi, hcode⟩ | ⟨i, hi, hcode⟩) | (⟨i, hi, hcode⟩ | ⟨i, hi, hcode⟩))
    · rw [code_of_missingSection hi] at hcode; simp at hcode
    · exact ((mem_linkageIssues_iff hne).mp hi).1
    · rw [code_of_optionalSection hi] at hcode; simp at hcode
    · rcases code_of_formulaWarnings hi with h | h <;> rw [h] at hcode <;> simp at hcode
  · intro h
    refine Or.inl (Or.inr ⟨_, (mem_linkageIssues_iff hne).mpr ⟨h, rfl⟩, rfl⟩)

/-- Witness for C8 at a concrete contract: linkage section without the
"extra time" literal triggers the error. -/
theorem validator_extra_time_linkage_witness :
    "missing_extra_time_path" ∈
      (validate_contract "## Связь с Extra Time\nпуть не задан").issues.map (·.code) :=
  (validator_extra_time_linkage "## Связь с Extra Time\nпуть не задан"
      "путь не задан" (by decide) (by decide)).mpr (Or.inl (by decide))

lemma tool_save_contract_fail (postCommit : MemState → MemState)
    (sha : String → String) (ts nowDate : String) (st : MemState)
    (cid content : String) (force : Bool)
    (h : (saveContractCheck st cid content force).1.isEmpty = false) :
    tool_save_contract postCommit sha ts nowDate st cid content force =
      (⟨false, cid, (saveContractCheck st cid content force).1,
        (saveContractCheck st cid content force).2⟩, st) := by
  unfold tool_save_contract
  rw [if_pos]
  simp [h]

lemma tool_save_contract_ok (postCommit : MemState → MemState)
    (sha : String → String) (ts nowDate : String) (st : MemState)
    (cid content : String) (force : Bool)
    (h : (saveContractCheck st cid content force).1.isEmpty = true) :
    tool_save_contract postCommit sha ts nowDate st cid content force =
      (⟨true, cid, [], (saveContractCheck st cid content force).2⟩,
       postCommit (updateContractIndexAgreed (memSaveContract sha ts st cid content)
         cid ((extract_contract_name content).getD cid) nowDate)) := by
  unfold tool_save_contract
  rw [if_neg]
  simp [h]

/-- C1 (no-lie save): a `save_contract` invocation that reports
`success=false` leaves the whole Store state — in particular
`contracts/<id>.md` — byte-identical to its pre-call state. -/
theorem save_contract_no_lie (postCommit : MemState → MemState)
    (sha : String → String) (ts nowDate : String) (st : MemState)
    (cid content : String) (force : Bool)
    (h : (tool_save_contract postCommit sha ts nowDate st cid content force).1.success = false) :
    (tool_save_contract postCommit sha ts nowDate st cid content force).2 = st ∧
    lookupKey (tool_save_contract postCommit sha ts nowDate st cid content force).2.contracts cid =
      lookupKey st.contracts cid := by
  by_cases hc : (saveContractCheck st cid content force).1.isEmpty
  · rw [tool_save_contract_ok postCommit sha ts nowDate st cid content force hc] at h
    simp at h
  · rw [tool_save_contract_fail postCommit sha ts nowDate st cid content force
      (by simpa using hc)]
    exact ⟨rfl, rfl⟩

/-- Witness for C1: saving an empty contract fails validation and leaves
the (empty) state untouched. -/
theorem save_contract_no_lie_witness :
    (tool_save_contract id (fun _ => "") "t" "d" {} "x" "" false).1.success = false ∧
    (tool_save_contract id (fun _ => "") "t" "d" {} "x" "" false).2 = ({} : MemState) :=
  ⟨by decide,
   (save_contract_no_lie id (fun _ => "") "t" "d" {} "x" "" false (by decide)).1⟩

/-- C2 (pre-commit gates): errors are collected in gate order — structural
validator, tier-policy governance over the merged role map, glossary — and
returned together; the save succeeds iff no gate errored; any error aborts
with the state untouched; `force` moves only the glossary messages from
errors to warnings, leaving validator and governance errors blocking. -/
theorem save_contract_gates (postCommit : MemState → MemState)
    (sha : String → String) (ts nowDate : String) (st : MemState)
    (cid content : String) (force : Bool) :
    (tool_save_contract postCommit sha ts nowDate st cid content force).1.errors =
        validationErrors content ++ governanceErrors st cid content ++
          (if force then [] else glossaryMessages st content) ∧
    ((tool_save_contract postCommit sha ts nowDate st cid content force).1.success = true ↔
        validationErrors content ++ governanceErrors st cid content ++
          (if force then [] else glossaryMessages st content) = []) ∧
    ((tool_save_contract postCommit sha ts nowDate st cid content force).1.success = false →
        (tool_save_contract postCommit sha ts nowDate st cid content force).2 = st) ∧
    (force = true →
        (tool_save_contract postCommit sha ts nowDate st cid content force).1.errors =
            validationErrors content ++ governanceErrors st cid content ∧
        (tool_save_contract postCommit sha ts nowDate st cid content force).1.warnings =
            validationWarnings content ++ glossaryMessages st content) := by
  have hE : (saveContractCheck st cid content force).1 =
      validationErrors content ++ governanceErrors st cid content ++
        (if force then [] else glossaryMessages st content) := rfl
  have hW : (saveContractCheck st cid content force).2 =
      validationWarnings content ++
        (if force then glossaryMessages st content else []) := rfl
  by_cases hc : (saveContractCheck st cid content force).1.isEmpty
  · rw [tool_save_contract_ok postCommit sha ts nowDate st cid content force hc]
    have hnil := (List.isEmpty_iff).mp hc
    rw [hE] at hnil
    have hvg : validationErrors content ++ governanceErrors st cid content = [] :=
      (List.append_eq_nil.mp hnil).1
    refine ⟨by simpa using hnil.symm, by simpa using hnil.symm, by simp, ?_⟩
    rintro rfl
    exact ⟨by simpa using hvg.symm, by rw [hW]; simp⟩
  · rw [tool_save_contract_fail postCommit sha ts nowDate st cid content force
      (by simpa using hc)]
    have hne : ¬ (validationErrors content ++ governanceErrors st cid content ++
        (if force then [] else glossaryMessages st content) = []) := by
      rw [← hE]
      simpa [List.isEmpty_iff] using hc
    refine ⟨hE, by simpa using hne, by intro; rfl, ?_⟩
    rintro rfl
    refine ⟨by simpa using hE, by rw [hW]; simp⟩

/-- Witness for C2 at a failing concrete call: empty contract, no
governance config, `force` on. -/
theorem save_contract_gates_witness :
    (tool_save_contract id (fun _ => "") "t" "d" {} "x" "" true).1.success = false ∧
    (tool_save_contract id (fun _ => "") "t" "d" {} "x" "" true).2 = ({} : MemState) ∧
    (tool_save_contract id (fun _ => "") "t" "d" {} "x" "" true).1.errors =
      validationErrors "" ++ governanceErrors {} "x" "" := by
  have h := save_contract_gates id (fun _ => "") "t" "d" {} "x" "" true
  exact ⟨by decide, h.2.2.1 (by decide), (h.2.2.2 rfl).1⟩

/-! ## Theorems: thread reuse, store atomicity, dunning ladder -/

lemma lookupKey_setKey_self {β : Type} (m : List (String × β)) (k : String)
    (v : β) : lookupKey (setKey m k v) k = some v := by
  induction m with
  | nil => simp [setKey, lookupKey]
  | cons p rest ih =>
    by_cases h : p.1 = k <;> simp [setKey, lookupKey, h, ih]

lemma get_active_thread_ne_empty {reg : ThreadRegistry} {now : Int}
    {cid R : String} (h : get_active_thread reg now cid = some R) : R ≠ "" := by
  unfold get_active_thread at h
  cases reg with
  | none => simp at h
  | some threads =>
    dsimp only at h
    cases hl : lookupKey threads cid with
    | none => rw [hl] at h; simp at h
    | some e =>
      rw [hl] at h
      dsimp only at h
      split at h
      · simp at h
      · split at h
        · simp at h
        · rename_i hne
          obtain rfl := Option.some_injective _ h
          exact hne

/-- C3 (thread reuse): with `(entity → R)` registered and fresh, a
top-level channel message of a discussion-shaped intent about that entity
gets its reply posted under `R`, and the agent re-registers the entity to
`root_post_id` — the first non-empty of the incoming thread root, the
resolved root and the post id — which here is `R`, freshly stamped. -/
theorem thread_reuse (reg : ThreadRegistry) (now : Int)
    (ent post_id R rty : String)
    (hR : get_active_thread reg now ent = some R)
    (hty : rty ∈ THREAD_TRACKING_TYPES) (hent : ent ≠ "") :
    listenerReplyRoot
        (agentThreadTracking reg now "channel" rty (some ent) "" post_id).thread_root_id
        "" post_id = R ∧
    (agentThreadTracking reg now "channel" rty (some ent) "" post_id).registry =
      set_active_thread reg now ent (firstNonEmpty ["", R, post_id]) ∧
    get_active_thread
        (agentThreadTracking reg now "channel" rty (some ent) "" post_id).registry
        now ent = some R := by
  have hRne : R ≠ "" := get_active_thread_ne_empty hR
  have hfind : firstNonEmpty ["", R, post_id] = R := by
    simp [firstNonEmpty, List.find?, hRne]
  have htr : agentThreadTracking reg now "channel" rty (some ent) "" post_id =
      ⟨some R, set_active_thread reg now ent R⟩ := by
    unfold agentThreadTracking
    rw [if_neg (by simp), if_neg (by simpa using hty)]
    dsimp
    rw [if_neg hent]
    simp [hR, hfind, hRne]
  rw [htr]
  refine ⟨by simp [listenerReplyRoot, firstNonEmpty, List.find?, hRne], by rw [hfind], ?_⟩
  show get_active_thread (set_active_thread reg now ent R) now ent = some R
  unfold set_active_thread get_active_thread
  dsimp only
  rw [lookupKey_setKey_self]
  simp [entryExpired, hRne, THREAD_TTL_DAYS]

/-- Witness for C3 at a concrete registry and message. -/
theorem thread_reuse_witness :
    listenerReplyRoot
        (agentThreadTracking (some [("headcount", ⟨"R1", .time 100⟩)]) 200
          "channel" "contract_discussion" (some "headcount") "" "p9").thread_root_id
        "" "p9" = "R1" ∧
    get_active_thread
        (agentThreadTracking (some [("headcount", ⟨"R1", .time 100⟩)]) 200
          "channel" "contract_discussion" (some "headcount") "" "p9").registry
        200 "headcount" = some "R1" := by
  have h := thread_reuse (some [("headcount", ⟨"R1", .time 100⟩)]) 200
    "headcount" "p9" "R1" "contract_discussion" (by decide) (by decide) (by decide)
  exact ⟨h.1, h.2.2⟩

/-- C6 counterexample: the single-file writer path `write_file` writes the
final path in place — it is not temp-write + rename. -/
theorem store_write_file_not_temp_rename :
    atomicTempRename (write_file_ops "contracts/index.json" "x") = false := by
  decide

lemma stagingOps_no_direct (writes : List (String × String)) (i : Nat) :
    (stagingOps i writes).all (fun op => ¬ touchesFinalDirectly op) = true := by
  induction writes generalizing i with
  | nil => rfl
  | cons w rest ih =>
    simp only [stagingOps, List.all_cons, Bool.and_eq_true]
    exact ⟨by simp [touchesFinalDirectly], by simp [touchesFinalDirectly], ih (i + 1)⟩

lemma stagingOps_no_rename (writes : List (String × String)) (i : Nat) :
    (stagingOps i writes).all (fun op => ¬ isRenameOp op) = true := by
  induction writes generalizing i with
  | nil => rfl
  | cons w rest ih =>
    simp only [stagingOps, List.all_cons, Bool.and_eq_true]
    exact ⟨by simp [isRenameOp], by simp [isRenameOp], ih (i + 1)⟩

lemma renamingOps_no_direct (writes : List (String × String)) (i : Nat) :
    (renamingOps i writes).all (fun op => ¬ touchesFinalDirectly op) = true := by
  induction writes generalizing i with
  | nil => rfl
  | cons w rest ih =>
    simp only [renamingOps, List.all_cons, Bool.and_eq_true]
    exact ⟨by simp [touchesFinalDirectly], ih (i + 1)⟩

lemma renamingOps_finals (writes : List (String × String)) (i : Nat) :
    (renamingOps i writes).filterMap renamedFinal = writes.map Prod.fst := by
  induction writes generalizing i with
  | nil => rfl
  | cons w rest ih => simp [renamingOps, renamedFinal, ih]

/-- C6 amended: `write_batch` first stages every write as a temp file and
only then renames all of them into place; the batch never writes a final
path directly, and each written path is renamed into place exactly in
order. -/
theorem write_batch_stages_then_renames (writes : List (String × String)) :
    write_batch_ops writes = stagingOps 0 writes ++ renamingOps 0 writes ∧
    atomicTempRename (write_batch_ops writes) = true ∧
    (stagingOps 0 writes).all (fun op => ¬ isRenameOp op) = true ∧
    (renamingOps 0 writes).filterMap renamedFinal = writes.map Prod.fst := by
  refine ⟨rfl, ?_, stagingOps_no_rename writes 0, renamingOps_finals writes 0⟩
  unfold write_batch_ops atomicTempRename
  rw [List.all_append]
  rw [stagingOps_no_direct writes 0, renamingOps_no_direct writes 0]
  rfl

lemma stepAdvance_bounds (s : Int) (h1 : 1 ≤ s) (h5 : s ≤ 5) :
    s ≤ stepAdvance s ∧ 1 ≤ stepAdvance s ∧ stepAdvance s ≤ 5 := by
  unfold stepAdvance
  split_ifs <;> omega

lemma processReminder_bounds (now : Int) (r : Reminder)
    (h1 : 1 ≤ r.escalation_step) (h5 : r.escalation_step ≤ 5) :
    r.escalation_step ≤ (processReminder now r).escalation_step ∧
    1 ≤ (processReminder now r).escalation_step ∧
    (processReminder now r).escalation_step ≤ 5 := by
  unfold processReminder
  cases r.next_reminder with
  | none => exact ⟨le_refl _, h1, h5⟩
  | some t =>
    dsimp
    split
    · exact ⟨le_refl _, h1, h5⟩
    · simpa using stepAdvance_bounds r.escalation_step h1 h5

lemma processReminderSeq_bounds (nows : List Int) (r : Reminder)
    (h1 : 1 ≤ r.escalation_step) (h5 : r.escalation_step ≤ 5) :
    r.escalation_step ≤ (processReminderSeq nows r).escalation_step ∧
    1 ≤ (processReminderSeq nows r).escalation_step ∧
    (processReminderSeq nows r).escalation_step ≤ 5 := by
  induction nows generalizing r with
  | nil => exact ⟨le_refl _, h1, h5⟩
  | cons n ns ih =>
    have h := processReminder_bounds n r h1 h5
    have h' := ih (processReminder n r) h.2.1 h.2.2
    exact ⟨le_trans h.1 h'.1, h'.2.1, h'.2.2⟩

lemma reminderPasses_eq_map (nows : List Int) (rs : List Reminder) :
    reminderPasses nows rs = rs.map (processReminderSeq nows) := by
  induction nows generalizing rs with
  | nil =>
    rw [show processReminderSeq [] = fun r => r from rfl]
    simp [reminderPasses]
  | cons n ns ih =>
    have : reminderPasses (n :: ns) rs = reminderPasses ns (check_reminders n rs) := rfl
    rw [this, ih, check_reminders, List.map_map]
    rfl

/-- C7 (dunning ladder monotonicity): for a reminder whose step lies in
[1,5], one pass never decreases the step and keeps it ≤ 5, and across any
sequence of passes the step never decreases and never exceeds 5. -/
theorem dunning_ladder_monotone (nows : List Int) (now : Int)
    (rs : List Reminder) (i : Nat) (hi : i < rs.length)
    (h1 : 1 ≤ (rs.get ⟨i, hi⟩).escalation_step)
    (h5 : (rs.get ⟨i, hi⟩).escalation_step ≤ 5) :
    (∀ hj : i < (check_reminders now rs).length,
       (rs.get ⟨i, hi⟩).escalation_step ≤
           ((check_reminders now rs).get ⟨i, hj⟩).escalation_step ∧
       ((check_reminders now rs).get ⟨i, hj⟩).escalation_step ≤ 5) ∧
    (∀ hj : i < (reminderPasses nows rs).length,
       (rs.get ⟨i, hi⟩).escalation_step ≤
           ((reminderPasses nows rs).get ⟨i, hj⟩).escalation_step ∧
       ((reminderPasses nows rs).get ⟨i, hj⟩).escalation_step ≤ 5) := by
  constructor
  · intro hj
    have hg : (check_reminders now rs).get ⟨i, hj⟩ =
        processReminder now (rs.get ⟨i, hi⟩) := by
      simp [check_reminders]
    rw [hg]
    have h := processReminder_bounds now (rs.get ⟨i, hi⟩) h1 h5
    exact ⟨h.1, h.2.2⟩
  · intro hj
    have hj' : i < (rs.map (processReminderSeq nows)).length := by
      simpa using hi
    have hg : (reminderPasses nows rs).get ⟨i, hj⟩ =
        processReminderSeq nows (rs.get ⟨i, hi⟩) := by
      have hmap := reminderPasses_eq_map nows rs
      simp only [List.get_eq_getElem]
      simp [hmap]
    rw [hg]
    have h := processReminderSeq_bounds nows (rs.get ⟨i, hi⟩) h1 h5
    exact ⟨h.1, h.2.2⟩

lemma witnessReminders_ok : 0 < witnessReminders.length := by decide

lemma witnessPasses_ok :
    0 < (reminderPasses [0, 200000, 400000] witnessReminders).length := by decide

/-- Witness for C7 at a concrete reminder and pass schedule. -/
theorem dunning_ladder_monotone_witness :
    1 ≤ ((reminderPasses [0, 200000, 400000] witnessReminders).get
          ⟨0, witnessPasses_ok⟩).escalation_step ∧
    ((reminderPasses [0, 200000, 400000] witnessReminders).get
          ⟨0, witnessPasses_ok⟩).escalation_step ≤ 5 :=
  ⟨le_trans (by decide)
      ((dunning_ladder_monotone [0, 200000, 400000] 0 witnessReminders
          0 witnessReminders_ok (by decide) (by decide)).2 witnessPasses_ok).1,
   ((dunning_ladder_monotone [0, 200000, 400000] 0 witnessReminders
      0 witnessReminders_ok (by decide) (by decide)).2 witnessPasses_ok).2⟩

/-! ## Theorems: tool executor totality, approval voting -/

/-- C10: `execute` is total — an unknown tool name yields the
`Unknown tool` error dict, a raising handler yields a `Tool <name> failed`
error dict, a returning handler's payload is passed through, and every
call produces either a payload or an error dict (no exception escapes). -/
theorem execute_total (handlers : String → Option ToolHandler)
    (tool_name args : String) :
    (handlers tool_name = none →
      executeTool handlers tool_name args =
        .errorDict ("Unknown tool: " ++ tool_name)) ∧
    (∀ h e, handlers tool_name = some h → h args = .error e →
      executeTool handlers tool_name args =
        .errorDict ("Tool " ++ tool_name ++ " failed: " ++ e)) ∧
    (∀ h r, handlers tool_name = some h → h args = .ok r →
      executeTool handlers tool_name args = .ok r) ∧
    ((∃ p, executeTool handlers tool_name args = .ok p) ∨
     (∃ m, executeTool handlers tool_name args = .errorDict m)) := by
  refine ⟨?_, ?_, ?_, ?_⟩
  · intro hn
    simp [executeTool, hn]
  · intro h e hh he
    simp [executeTool, hh, he]
  · intro h r hh hr
    simp [executeTool, hh, hr]
  · cases hh : handlers tool_name with
    | none =>
      exact Or.inr ⟨"Unknown tool: " ++ tool_name, by simp [executeTool, hh]⟩
    | some h =>
      cases he : h args with
      | ok r => exact Or.inl ⟨r, by simp [executeTool, hh, he]⟩
      | error e =>
        exact Or.inr ⟨"Tool " ++ tool_name ++ " failed: " ++ e,
          by simp [executeTool, hh, he]⟩

/-- Handler table used by the C10 witness: one raising handler. -/
def witnessHandlers : String → Option ToolHandler :=
  fun n => if n = "boom" then some (fun _ => .error "kaput") else none

/-- Witness for C10: unknown tool and raising handler at concrete inputs. -/
theorem execute_total_witness :
    executeTool witnessHandlers "nope" "{}" = .errorDict "Unknown tool: nope" ∧
    executeTool witnessHandlers "boom" "{}" =
      .errorDict "Tool boom failed: kaput" :=
  ⟨(execute_total witnessHandlers "nope" "{}").1 rfl,
   (execute_total witnessHandlers "boom" "{}").2.1
     (fun _ => .error "kaput") "kaput" rfl rfl⟩

/-- C5: `approve_contract` records a vote iff the normalized caller
resolves to one of the required roles via the merged role map and the vote
is not a duplicate; a duplicate vote from a resolving caller returns
`success=true` with `already_approved=true` and leaves the state
unchanged. -/
theorem approve_contract_records_iff (merged : List (String × List String))
    (s : ApprovalState) (username now : String) :
    ((approve_contract merged (some s) username now).2.map (·.approvals.length) =
        some (s.approvals.length + 1) ↔
      (resolveRequiredRole merged s.required_roles
          (normalizeUsername username)).isSome = true ∧
      s.approvals.any (·.username = normalizeUsername username) = false) ∧
    ((resolveRequiredRole merged s.required_roles
          (normalizeUsername username)).isSome = true →
      s.approvals.any (·.username = normalizeUsername username) = true →
      (approve_contract merged (some s) username now).1.success = true ∧
      (approve_contract merged (some s) username now).1.already_approved = true ∧
      (approve_contract merged (some s) username now).2 = some s) := by
  cases hres : resolveRequiredRole merged s.required_roles
      (normalizeUsername username) with
  | none =>
    refine ⟨?_, ?_⟩
    · simp [approve_contract, hres]
    · intro hs
      simp at hs
  | some role =>
    by_cases hdup : s.approvals.any (·.username = normalizeUsername username)
    · refine ⟨?_, ?_⟩
      · simp [approve_contract, hres, hdup]
      · intro _ _
        simp [approve_contract, hres, hdup]
    · refine ⟨?_, ?_⟩
      · simp [approve_contract, hres, hdup]
      · intro _ hd
        exact absurd hd hdup

/-- State used by the C5 witness. -/
def witnessApproval : ApprovalState :=
  { tier := "tier_2", required_roles := ["circle_lead", "data_lead"],
    threshold := (8 : ℚ) / 10 }

/-- Merged role map used by the C5 witness. -/
def witnessMerged : List (String × List String) :=
  [("circle_lead", ["korabovtsev"]), ("data_lead", ["pavelpetrin"])]

/-- Witness for C5: a resolving, non-duplicate caller gets one vote
recorded. -/
theorem approve_contract_records_iff_witness :
    (approve_contract witnessMerged (some witnessApproval) "@Korabovtsev"
        "2026-01-01").2.map (·.approvals.length) = some 1 :=
  (approve_contract_records_iff witnessMerged witnessApproval "@Korabovtsev"
      "2026-01-01").1.mpr ⟨by decide, by decide⟩

/-! ## Theorems: planner cycle with no candidates -/

/-- C9: when housekeeping-then-scoring yields zero candidates, the cycle
makes zero LLM calls, sends zero chat messages, and appends exactly one
`cycle_complete` record with `candidates:0, actions:0`; the state only
gains the housekeeping changes and the `last_plan_at` stamp. -/
theorem planner_empty_cycle
    (dispatch : PAction → Initiative → Option DispatchResult)
    (llmActions : Option (List PAction)) (g : Gathered) (st0 : PlannerState)
    (now : Int) (today todayId : String)
    (h : planner_score g (abandonStaleInitiatives st0 now) now = []) :
    run_cycle dispatch llmActions g st0 now today todayId =
      { state := { abandonStaleInitiatives st0 now with last_plan_at := some now },
        llmCalls := 0, chatSends := 0,
        log := [.cycleComplete 0 0] } := by
  unfold run_cycle
  dsimp only
  rw [h]
  rfl

/-- Witness for C9: a fully empty gather/state cycle. -/
theorem planner_empty_cycle_witness :
    (run_cycle (fun _ _ => none) none {} {} 0 "2026-01-01" "20260101").llmCalls = 0 ∧
    (run_cycle (fun _ _ => none) none {} {} 0 "2026-01-01" "20260101").chatSends = 0 ∧
    (run_cycle (fun _ _ => none) none {} {} 0 "2026-01-01" "20260101").log =
      [.cycleComplete 0 0] := by
  have h := planner_empty_cycle (fun _ _ => none) none {} {} 0 "2026-01-01"
    "20260101" (by decide)
  rw [h]
  exact ⟨rfl, rfl, rfl⟩

/-! ## Theorems: role-assignment fast-path -/

/-- C4 counterexample: a channel message whose lines have the claimed
`Data Lead — @<mention>` / `Circle Lead — @<mention>` form, yet routing
diverts to the earlier approval-vote fast-path (the mention `@approve`
matches `\b(согласую|одобряю|approve)\s+...`), so no role assignment
happens and the heavy LLM is invoked for the resulting
`contract_discussion` route. -/
theorem roles_fastpath_cex :
    (route {} "u" cexRolesMessage "channel").rtype = "contract_discussion" ∧
    (route {} "u" cexRolesMessage "channel").rtype ≠ "roles_assign" ∧
    (route {} "u" cexRolesMessage "channel").model = "heavy" ∧
    agentCallsLLM (route {} "u" cexRolesMessage "channel").rtype = true := by
  decide

/-- C4 amended: for the literal E3 message (whose mentions collide with no
earlier fast-path pattern) the router takes the roles fast-path without its
classifier, the agent's roles handler merges the assignments into the
runtime roles yielding `data_lead:["pavelpetrin"]`,
`circle_lead:["korabovtsev"]`, the reply is a structured confirmation
naming `tasks/roles.json`, and no LLM is called. -/
theorem roles_fastpath_e3 :
    route {} "u" e3Message "channel" =
      { rtype := "roles_assign",
        entity := some "data_lead:pavelpetrin,circle_lead:korabovtsev",
        load_files := ["tasks/roles.json", "context/roles.json"],
        model := "cheap", llmUsed := false } ∧
    agentCallsLLM "roles_assign" = false ∧
    (roles_assign_handler (fun _ => none) none
        "data_lead:pavelpetrin,circle_lead:korabovtsev").2 =
      [("data_lead", ["pavelpetrin"]), ("circle_lead", ["korabovtsev"])] ∧
    strContains
      (roles_assign_handler (fun _ => none) none
          "data_lead:pavelpetrin,circle_lead:korabovtsev").1
      "tasks/roles.json" = true := by
  decide

end Daai
